import Mathlib

/-!
# respawn: a verification development

A shallow embedding of `src/respawn.c` (the process respawner): the pidfile
store (`writepidfile`, `getpidfilepid`, `rmpidfile`), argument resolution
(`parse_arguments`), the launcher and controller (`main`, `do_spawn`) and the
supervisory loop of `do_watcher`, followed by theorems about them.

Conventions of the embedding.
* C `int`/`pid_t` values are `Int`; where a value is converted from text the
  32-bit range is made explicit.
* The file system is an explicit value (`FS`) passed through the operations.
* System calls whose result is decided by the operating system (`fork`,
  `kill`, `wait`, `sleep`) take that result from an explicit environment
  argument and are recorded in a list of `Event`s.
-/

namespace Respawn

/-! ## The C library pieces used by the pidfile store -/

/-- Smallest value of a C `int` (and of `pid_t`). -/
def INT_MIN : Int := -2147483648

/-- Largest value of a C `int` (and of `pid_t`). -/
def INT_MAX : Int := 2147483647

/-- Smallest value of a C `long` on LP64. -/
def LONG_MIN : Int := -9223372036854775808

/-- Largest value of a C `long` on LP64. -/
def LONG_MAX : Int := 9223372036854775807

/-- The character of the decimal digit `d` (`'0' + d`). -/
def digit_char (d : Nat) : Char := Char.ofNat (48 + d)

/-- C `isdigit`. -/
def is_digit (c : Char) : Bool := decide (48 ≤ c.toNat) && decide (c.toNat ≤ 57)

/-- The value of a decimal digit character (`c - '0'`). -/
def digit_val (c : Char) : Nat := c.toNat - 48

/-- C `isspace` in the "C" locale: space, `\t`, `\n`, `\v`, `\f`, `\r`. -/
def is_space (c : Char) : Bool :=
  decide (c.toNat = 32) || (decide (9 ≤ c.toNat) && decide (c.toNat ≤ 13))

/-- The decimal digits of `n`, most significant first, put in front of `acc`.
`fuel` bounds the number of digits; `n + 1` is always enough. -/
def digits_fuel : Nat → Nat → List Char → List Char
  | 0, _, acc => acc
  | fuel + 1, n, acc =>
    if n / 10 = 0 then digit_char (n % 10) :: acc
    else digits_fuel fuel (n / 10) (digit_char (n % 10) :: acc)

/-- The text `printf("%u")` produces for a natural number. -/
def print_nat (n : Nat) : List Char := digits_fuel (n + 1) n []

/-- The text `printf("%d")` produces. -/
def print_int (v : Int) : List Char :=
  if v < 0 then '-' :: print_nat v.natAbs else print_nat v.natAbs

/-- The text `fprintf(f, "%d\n", pid)` writes (line 102). -/
def pidfile_text (pid : Int) : List Char := print_int pid ++ ['\n']

/-- Accumulates the longest run of decimal digits at the head of the input. -/
def scan_digits : Nat → List Char → Nat
  | acc, [] => acc
  | acc, c :: cs => if is_digit c then scan_digits (acc * 10 + digit_val c) cs else acc

/-- A non-empty run of decimal digits at the head of the input, as a number;
`none` when the input does not start with a digit. -/
def scan_nat : List Char → Option Nat
  | [] => none
  | c :: cs => if is_digit c then some (scan_digits (digit_val c) cs) else none

/-- Drops leading white space, as every `scanf` conversion but `%c` does. -/
def skip_space : List Char → List Char
  | [] => []
  | c :: cs => if is_space c then skip_space cs else c :: cs

/-- The integer a `%d` conversion matches, before it is stored: optional white
space, an optional sign, then at least one digit. `none` is a matching or
input failure (`fscanf` returns 0 or `EOF`). -/
def scan_long (cs : List Char) : Option Int :=
  match skip_space cs with
  | [] => none
  | c :: rest =>
    if c = '-' then (scan_nat rest).map (fun n => -(n : Int))
    else if c = '+' then (scan_nat rest).map (fun n => (n : Int))
    else (scan_nat (c :: rest)).map (fun n => (n : Int))

/-- Storing the matched number in an `int`: the value is kept when it fits.
Out of range the C standard leaves the result open; the model follows glibc on
LP64, which saturates to `long` and then truncates to 32 bits. -/
def store_int (n : Int) : Int :=
  let l := max LONG_MIN (min LONG_MAX n)
  (l + 2147483648) % 4294967296 - 2147483648

/-- Models `fscanf(f, "%d", &v)`: `some v` when the call returns 1. -/
def fscanf_d (cs : List Char) : Option Int := (scan_long cs).map store_int

/-! ## The file system and the global options -/

/-- The part of the file system the program touches, as this process sees it.
`content path` is what `fopen(path, "r")` yields: the text of the file, or
`none` when the open fails (no such file, or a file this process may not
read). The three flags are the outcomes the operating system gives to the
other calls the program makes on a path, each independent of the others:
`writable`, whether `fopen(path, "w")` succeeds; `removable`, whether
`unlink(path)` succeeds; `readable_written`, whether a file written at a path
that could not be read before (a newly created file, or an existing one
without read permission) can be read afterwards. No run of the program makes
two calls of the same kind on a path, or writes a path after unlinking it. -/
structure FS where
  content : String → Option (List Char)
  writable : String → Bool
  removable : String → Bool
  readable_written : String → Bool

/-- Models `fopen(path, "w")` followed by writing `text` and `fclose`: `none`
when the open fails. The file is truncated and keeps its permissions, so a
file that could be read before can be read afterwards; otherwise whether the
text can be read back is decided by `readable_written`. -/
def FS.write (fs : FS) (path : String) (text : List Char) : Option FS :=
  if fs.writable path then
    some { fs with content := fun q =>
      if q = path then
        (if (fs.content path).isSome || fs.readable_written path then some text else none)
      else fs.content q }
  else none

/-- Models `unlink(path)`: the file is gone when the call succeeds, and
nothing changes when it fails. -/
def FS.unlink (fs : FS) (path : String) : FS :=
  if fs.removable path then
    { fs with content := fun q => if q = path then none else fs.content q }
  else fs

/-- The run mode (line 47). -/
inductive Runmode where
  | Undef
  | Start
  | Stop
  | Restart
  deriving DecidableEq

/-- The global program options (lines 40-47); a C null pointer is `none`. -/
structure Globals where
  pidfile : Option String
  exe_vptr : List String
  cwd : Option String
  logfile : Option String
  overwrite_log : Int
  quiet_log : Int
  sleeptime : Int
  runmode : Runmode
  deriving DecidableEq

/-- The initial values of the globals (lines 40-47). -/
def Globals.init : Globals :=
  { pidfile := none, exe_vptr := [], cwd := none, logfile := none,
    overwrite_log := 0, quiet_log := 0, sleeptime := 10, runmode := Runmode.Undef }

/-- Models `writepidfile` (lines 90-105): nothing without a pidfile option; when
`fopen(pidfile, "w")` fails a warning is printed and nothing is written;
otherwise the file is replaced by the decimal pid and a newline. The `Bool`
tells whether the warning was printed. -/
def writepidfile (g : Globals) (fs : FS) (pid : Int) : FS × Bool :=
  match g.pidfile with
  | none => (fs, false)
  | some path =>
    match fs.write path (pidfile_text pid) with
    | none => (fs, true)
    | some written => (written, false)

/-- Models `getpidfilepid` (lines 108-123): 0 unless a pidfile is configured,
can be opened for reading and starts with something `%d` matches. -/
def getpidfilepid (g : Globals) (fs : FS) : Int :=
  match g.pidfile with
  | none => 0
  | some path =>
    match fs.content path with
    | none => 0
    | some text =>
      match fscanf_d text with
      | some v => v
      | none => 0

/-- Models `rmpidfile` (lines 126-131): `unlink(pidfile)` when a pidfile is
configured; the result of `unlink` is ignored. -/
def rmpidfile (g : Globals) (fs : FS) : FS :=
  match g.pidfile with
  | none => fs
  | some path => fs.unlink path

/-! ## Observable actions -/

/-- Signal numbers passed to `kill`; `zero` is the null signal of the liveness
probe `kill(pid, 0)`. -/
inductive Sig where
  | zero
  | SIGHUP
  | SIGINT
  | SIGTERM
  deriving DecidableEq

/-- The lines the program prints with `fprintf(stderr, ...)`, one constructor
per format string, with the values of its conversions. -/
inductive Msg where
  | unexpected_error
  | must_specify_mode
  | must_specify_exe
  | must_supply_pidfile
  | already_running (pid : Int)
  | stale_ignored (pid : Int)
  | pidfile_not_found
  | stale_removed (pid : Int)
  | cant_access (pid : Int)
  | undefined_runmode
  | spawn_fork_failed
  | pidfile_write_failed
  | watcher_starting (path : Option String)
  | watcher_exec_failed
  | watcher_fork_failed
  | watcher_child_died (exit_status : Int)
  | watcher_restart_requested (child : Int)
  | watcher_exit_requested (child : Int)
  | watcher_sleeping (secs : Int)
  | watcher_exiting
  deriving DecidableEq

/-- The system calls and output the theorems speak about, in program order. -/
inductive Event where
  | log (m : Msg)
  | help
  | stdout_pid (pid : Int)
  | kill (pid : Int) (sig : Sig)
  | fork (ret : Int)
  | quiet_stdio
  | execv (path : Option String) (argv : List String)
  | wait (res : Int) (status : Int)
  | sleep (secs : Int)
  | chdir (dir : String)
  | exit (code : Int)
  deriving DecidableEq

/-- C `errno` value "no such process". -/
def ESRCH : Int := 3

/-- C `errno` value "operation not permitted". -/
def EPERM : Int := 1

/-! ## Argument resolution -/

/-- One result of `getopt_long` (line 288): the option character it returns and
the value of `optarg`. The C library function is not part of the program; its
successive results are an input of the model. -/
structure Getopt where
  c : Char
  optarg : String
  deriving DecidableEq

/-- Models C `atoi`: the leading integer of the text, 0 when there is none. -/
def atoi (s : String) : Int :=
  match scan_long s.toList with
  | some n => store_int n
  | none => 0

/-- What `parse_arguments` leaves behind: the globals, what was printed, and
the exit status when it called `exit`. -/
structure Parsed where
  g : Globals
  events : List Event
  exit : Option Int
  deriving DecidableEq

/-- The option loop of `parse_arguments` (lines 264-333) over the results of
`getopt_long`; the end of the list is the result -1. -/
def parse_options : List Getopt → Globals → Parsed
  | [], g => { g := g, events := [], exit := none }
  | o :: os, g =>
    if o.c = 'h' then { g := g, events := [Event.help, Event.exit 0], exit := some 0 }
    else if o.c = 'l' then parse_options os { g with logfile := some o.optarg }
    else if o.c = 'p' then parse_options os { g with pidfile := some o.optarg }
    else if o.c = 'd' then parse_options os { g with cwd := some o.optarg }
    else if o.c = 't' then parse_options os { g with sleeptime := atoi o.optarg }
    else if o.c = 'o' then parse_options os { g with overwrite_log := 1 }
    else if o.c = 'q' then parse_options os { g with quiet_log := 1 }
    else if o.c = '?' then parse_options os g
    else { g := g, events := [Event.log Msg.unexpected_error, Event.exit 1], exit := some 1 }

/-- The run mode named by `argv[optind]` (lines 338-344); any other word
leaves `runmode` as it was. -/
def set_runmode (g : Globals) (word : String) : Globals :=
  if word = "start" then { g with runmode := Runmode.Start }
  else if word = "stop" then { g with runmode := Runmode.Stop }
  else if word = "restart" then { g with runmode := Runmode.Restart }
  else g

/-- Lines 336-366 of `parse_arguments`, after the option loop: `args` is
`argv` from `optind` on. -/
def parse_rest (g0 : Globals) (args : List String) : Parsed :=
  let g1 := match args with
    | [] => g0
    | word :: _ => set_runmode g0 word
  if g1.runmode = Runmode.Undef then
    { g := g1, events := [Event.log Msg.must_specify_mode, Event.exit 1], exit := some 1 }
  else
    if g1.runmode = Runmode.Start ∧ args.length = 1 then
      { g := g1, events := [Event.log Msg.must_specify_exe, Event.exit 1], exit := some 1 }
    else
      let g2 := if g1.runmode = Runmode.Start then
          { g1 with
            exe_vptr := args.drop 1,
            logfile := match g1.logfile with
              | none => some "/dev/null"
              | some l => some l }
        else g1
      if g2.pidfile = none ∧ (g2.runmode = Runmode.Stop ∨ g2.runmode = Runmode.Restart) then
        { g := g2, events := [Event.log Msg.must_supply_pidfile, Event.exit 1], exit := some 1 }
      else { g := g2, events := [], exit := none }

/-- Models `parse_arguments` (lines 262-367) from the initial globals: `opts`
are the results of `getopt_long` and `args` is `argv` from `optind` on. -/
def parse_arguments (opts : List Getopt) (args : List String) : Parsed :=
  let p := parse_options opts Globals.init
  match p.exit with
  | some code => { g := p.g, events := p.events, exit := some code }
  | none => parse_rest p.g args

/-! ## Launcher and controller -/

/-- What the operating system answers to the calls of `main` and `do_spawn`:
the return value of `kill(pid, sig)`, the `errno` a failing `kill` leaves, and
the return value of `fork()`. -/
structure Env where
  kill_ret : Int → Sig → Int
  kill_errno : Int → Sig → Int
  fork_ret : Int

/-- How a process of the program ends: it called `exit`, or it is the forked
child of `do_spawn` and carries on as the watcher in `do_watcher`. -/
inductive Outcome where
  | exit (code : Int)
  | watcher
  deriving DecidableEq

/-- The result of running `main`. -/
structure Result where
  events : List Event
  fs : FS
  outcome : Outcome

/-- Models `do_spawn` (lines 242-259). -/
def do_spawn (env : Env) (g : Globals) (fs : FS) : Result :=
  let pid := env.fork_ret
  if pid < 0 then
    { events := [Event.fork pid, Event.log Msg.spawn_fork_failed, Event.exit 1],
      fs := fs, outcome := Outcome.exit 1 }
  else if pid = 0 then
    { events := [Event.fork pid], fs := fs, outcome := Outcome.watcher }
  else
    let w := writepidfile g fs pid
    { events := [Event.fork pid] ++
        (if w.2 then [Event.log Msg.pidfile_write_failed] else []) ++
        [Event.stdout_pid pid, Event.exit 0],
      fs := w.1, outcome := Outcome.exit 0 }

/-- The `stop` and `restart` branches of `main` (lines 386-402 and 403-419),
which differ only in the signal sent at the end. In `if (errno=ESRCH)` the
condition is the value assigned, `ESRCH`. -/
def control (env : Env) (g : Globals) (fs : FS) (sig : Sig) : Result :=
  let pid := getpidfilepid g fs
  if pid = 0 then
    { events := [Event.log Msg.pidfile_not_found, Event.exit 1],
      fs := fs, outcome := Outcome.exit 1 }
  else if env.kill_ret pid Sig.zero ≠ 0 then
    let errno := ESRCH
    if errno ≠ 0 then
      { events := [Event.kill pid Sig.zero, Event.log (Msg.stale_removed pid), Event.exit 0],
        fs := rmpidfile g fs, outcome := Outcome.exit 0 }
    else
      { events := [Event.kill pid Sig.zero, Event.log (Msg.cant_access pid), Event.exit 1],
        fs := fs, outcome := Outcome.exit 1 }
  else
    { events := [Event.kill pid Sig.zero, Event.kill pid sig, Event.exit 0],
      fs := fs, outcome := Outcome.exit 0 }

/-- Lines 375-424 of `main`, with the globals as `parse_arguments` left them. -/
def dispatch (env : Env) (g : Globals) (fs : FS) : Result :=
  if g.runmode = Runmode.Start then
    let pid := getpidfilepid g fs
    if pid ≠ 0 then
      if env.kill_ret pid Sig.zero = 0 ∨ env.kill_errno pid Sig.zero ≠ ESRCH then
        { events := [Event.kill pid Sig.zero, Event.log (Msg.already_running pid), Event.exit 1],
          fs := fs, outcome := Outcome.exit 1 }
      else
        let r := do_spawn env g fs
        { r with events :=
            [Event.kill pid Sig.zero, Event.log (Msg.stale_ignored pid)] ++ r.events }
    else do_spawn env g fs
  else if g.runmode = Runmode.Stop then control env g fs Sig.SIGTERM
  else if g.runmode = Runmode.Restart then control env g fs Sig.SIGHUP
  else
    { events := [Event.log Msg.undefined_runmode, Event.exit 1],
      fs := fs, outcome := Outcome.exit 1 }

/-- Models `main` (lines 369-425). -/
def main (env : Env) (fs : FS) (opts : List Getopt) (args : List String) : Result :=
  let p := parse_arguments opts args
  match p.exit with
  | some code => { events := p.events, fs := fs, outcome := Outcome.exit code }
  | none =>
    let r := dispatch env p.g fs
    { r with events := p.events ++ r.events }

/-! ## The supervisory loop of `do_watcher` -/

/-- The control points of lines 190-239 of `do_watcher`. Each is either a
system call whose return the process is waiting for, or one read of a flag a
signal handler can write, so that a signal can be delivered between any two of
them. -/
inductive PC where
  -- Line 192: `fork()` called, not yet returned.
  | fork_call
  -- Line 202, in the forked child: `execv` called.
  | child_exec
  -- Line 212: about to call `wait`.
  | wait_call
  -- Line 212: blocked in `wait`.
  | wait_blocked
  -- Line 216: about to read `restart_requested`.
  | read_restart
  -- Line 220: about to read `terminated`.
  | read_terminated
  -- Line 225: about to test `child_dead`.
  | inner_test
  -- Line 227: about to read `restart_requested`.
  | check_restart
  -- Line 227: about to read `terminated`.
  | check_terminated
  -- Line 230: in `sleep`.
  | sleeping
  -- Line 232: about to read `terminated`.
  | outer_test
  -- The process has called `exit`.
  | exited
  deriving DecidableEq

/-- The state of the watcher process: its control point, the two flags of
lines 53-54, the locals `child` and `child_dead`, the exit status once it has
exited, and the file system. -/
structure Watcher where
  pc : PC
  terminated : Int
  restart_requested : Int
  child : Int
  child_dead : Int
  exit_code : Int
  fs : FS

/-- The watcher when it enters the loop at line 190 (handlers installed, flags
as initialised at lines 53-54). -/
def Watcher.init (fs : FS) : Watcher :=
  { pc := PC.fork_call, terminated := 0, restart_requested := 0, child := 0,
    child_dead := 0, exit_code := 0, fs := fs }

/-- What happens to the watcher next: a signal is delivered, the system call
it is in returns `v` (with `status` stored by `wait`), or it executes up to its
next control point. -/
inductive Input where
  | signal (s : Sig)
  | ret (v : Int) (status : Int)
  | tick
  deriving DecidableEq

/-- The signal handlers as installed at lines 174-179: `handle_hup_signal` for
SIGHUP, `handle_term_signal` for SIGINT and SIGTERM (lines 134-143). -/
def deliver (w : Watcher) : Sig → Watcher
  | Sig.SIGHUP => { w with restart_requested := 1 }
  | Sig.SIGINT => { w with terminated := 1 }
  | Sig.SIGTERM => { w with terminated := 1 }
  | Sig.zero => w

/-- C `WEXITSTATUS`: bits 8 to 15 of the status. -/
def WEXITSTATUS (status : Int) : Int := (status / 256) % 256

/-- Lines 213-215, when `wait` has returned `res`: the child is marked dead
exactly when `res == child`; otherwise control goes on to line 216. -/
def wait_returned (w : Watcher) (res status : Int) : Watcher × List Event :=
  if res = w.child then
    ({ w with child_dead := 1, pc := PC.inner_test },
      [Event.wait res status, Event.log (Msg.watcher_child_died (WEXITSTATUS status))])
  else ({ w with pc := PC.read_restart }, [Event.wait res status])

/-- What lines 233-239 print and call: the message, `chdir(oldcwd)` when both
`cwd` and `oldcwd` are set, and `exit(0)`. -/
def exit_events (g : Globals) (oldcwd : Option String) : List Event :=
  [Event.log Msg.watcher_exiting] ++
  (match g.cwd, oldcwd with
    | some _, some d => [Event.chdir d]
    | _, _ => []) ++
  [Event.exit 0]

/-- Lines 233-239: the way out of `do_watcher`, with `rmpidfile` at line 238. -/
def watcher_exit (g : Globals) (oldcwd : Option String) (w : Watcher) : Watcher × List Event :=
  ({ w with pc := PC.exited, exit_code := 0, fs := rmpidfile g w.fs }, exit_events g oldcwd)

/-- One step of lines 190-239 of `do_watcher`. `oldcwd` is what `getcwd`
returned at line 182. A signal runs its handler; delivered while the process
is blocked in `wait` it also makes `wait` return -1 (the handlers are installed
without `SA_RESTART`). The argument of `sleep` is `sleeptime` converted to
`unsigned int`. An input that does not apply at the current control point
leaves the state as it is. -/
def step (g : Globals) (oldcwd : Option String) (w : Watcher) : Input → Watcher × List Event
  | Input.signal s =>
    match w.pc with
    | PC.wait_blocked => wait_returned (deliver w s) (-1) 0
    | PC.exited => (w, [])
    | PC.child_exec => (w, [])
    | _ => (deliver w s, [])
  | Input.ret v status =>
    match w.pc with
    | PC.fork_call =>
      if v = 0 then
        ({ w with child := v, pc := PC.child_exec },
          [Event.fork v, Event.log (Msg.watcher_starting g.exe_vptr.head?)] ++
          (if g.quiet_log ≠ 0 then [Event.quiet_stdio] else []) ++
          [Event.execv g.exe_vptr.head? g.exe_vptr])
      else if v < 0 then
        ({ w with child := v, pc := PC.check_restart },
          [Event.fork v, Event.log Msg.watcher_fork_failed])
      else ({ w with child := v, child_dead := 0, pc := PC.wait_call }, [Event.fork v])
    | PC.child_exec =>
      ({ w with pc := PC.exited, exit_code := 1 },
        [Event.log Msg.watcher_exec_failed, Event.exit 1])
    | PC.wait_blocked => wait_returned w v status
    | PC.sleeping => ({ w with pc := PC.outer_test }, [])
    | _ => (w, [])
  | Input.tick =>
    match w.pc with
    | PC.wait_call => ({ w with pc := PC.wait_blocked }, [])
    | PC.read_restart =>
      if w.restart_requested ≠ 0 then
        ({ w with pc := PC.inner_test },
          [Event.log (Msg.watcher_restart_requested w.child), Event.kill w.child Sig.SIGTERM])
      else ({ w with pc := PC.read_terminated }, [])
    | PC.read_terminated =>
      if w.terminated ≠ 0 then
        ({ w with pc := PC.inner_test },
          [Event.log (Msg.watcher_exit_requested w.child), Event.kill w.child Sig.SIGTERM])
      else ({ w with pc := PC.inner_test }, [])
    | PC.inner_test =>
      if w.child_dead = 0 then ({ w with pc := PC.wait_call }, [])
      else ({ w with pc := PC.check_restart }, [])
    | PC.check_restart =>
      if w.restart_requested = 0 then ({ w with pc := PC.check_terminated }, [])
      else ({ w with pc := PC.outer_test }, [])
    | PC.check_terminated =>
      if w.terminated = 0 then
        ({ w with pc := PC.sleeping },
          [Event.log (Msg.watcher_sleeping g.sleeptime),
            Event.sleep (g.sleeptime % 4294967296)])
      else ({ w with pc := PC.outer_test }, [])
    | PC.outer_test =>
      if w.terminated = 0 then ({ w with pc := PC.fork_call }, [])
      else watcher_exit g oldcwd w
    | _ => (w, [])

/-- Runs the watcher from `w` through a sequence of inputs; the result is the
state reached and everything it did on the way, in order. -/
def run (g : Globals) (oldcwd : Option String) : Watcher → List Input → Watcher × List Event
  | w, [] => (w, [])
  | w, i :: is =>
    let r1 := step g oldcwd w i
    let r2 := run g oldcwd r1.1 is
    (r2.1, r1.2 ++ r2.2)

/-- The supervised children that exist after the events `es`, starting from
the children `l`: a child exists from the `fork` that returned its pid to the
`wait` that returned it. -/
def live_children : List Int → List Event → List Int
  | l, [] => l
  | l, Event.fork v :: es => live_children (if 0 < v then v :: l else l) es
  | l, Event.wait res _ :: es => live_children (l.filter (fun c => c ≠ res)) es
  | l, _ :: es => live_children l es

/-- The number of program steps (`tick`s) among the inputs. -/
def ticks : List Input → Nat
  | [] => 0
  | Input.tick :: is => ticks is + 1
  | _ :: is => ticks is

/-- Whether the input is the delivery of a termination signal (SIGINT or
SIGTERM). -/
def is_term_signal : Input → Bool
  | Input.signal Sig.SIGINT => true
  | Input.signal Sig.SIGTERM => true
  | _ => false

/-- No termination signal (SIGINT or SIGTERM) is among the inputs. -/
def no_term_signal (ins : List Input) : Bool := ins.all (fun i => !is_term_signal i)

/-- Whether the input is the return of a system call. -/
def is_ret : Input → Bool
  | Input.ret _ _ => true
  | _ => false

/-- No system call returns among the inputs. -/
def no_ret (ins : List Input) : Bool := ins.all (fun i => !is_ret i)

/-- The control points of the inner loop (lines 209-225), where the watcher is
waiting for its child. -/
def in_wait_loop : PC → Bool
  | PC.wait_call => true
  | PC.wait_blocked => true
  | PC.read_restart => true
  | PC.read_terminated => true
  | PC.inner_test => true
  | _ => false

/-- A file system with no files in which every path can be written, read back
and unlinked. -/
def FS.empty : FS :=
  { content := fun _ => none, writable := fun _ => true, removable := fun _ => true,
    readable_written := fun _ => true }

/-- A file system whose only file is `path`, holding `text`; every path can be
written, read back and unlinked. -/
def FS.single (path : String) (text : List Char) : FS :=
  { content := fun q => if q = path then some text else none, writable := fun _ => true,
    removable := fun _ => true, readable_written := fun _ => true }

/-- A file system whose only file is `path`, holding `text`, in a directory
this process may not change: the file can be rewritten and read, but no path
can be unlinked. -/
def FS.locked (path : String) (text : List Char) : FS :=
  { content := fun q => if q = path then some text else none, writable := fun _ => true,
    removable := fun _ => false, readable_written := fun _ => true }

/-- A file system with no files in which files can be created and unlinked
but are created without read permission. -/
def FS.write_only : FS :=
  { content := fun _ => none, writable := fun _ => true, removable := fun _ => true,
    readable_written := fun _ => false }

/-- The pidfile option used in the examples. -/
def example_pidfile : String := "/tmp/p.pid"

/-- The globals after `-p /tmp/p.pid`. -/
def example_globals : Globals := { Globals.init with pidfile := some example_pidfile }

/-- An operating system in which every `kill` fails with `errno`, and `fork`
returns `fork_ret`. -/
def Env.failing (errno : Int) (fork_ret : Int) : Env :=
  { kill_ret := fun _ _ => -1, kill_errno := fun _ _ => errno, fork_ret := fork_ret }

/-- An operating system in which every `kill` succeeds, and `fork` returns
`fork_ret`. -/
def Env.succeeding (fork_ret : Int) : Env :=
  { kill_ret := fun _ _ => 0, kill_errno := fun _ _ => 0, fork_ret := fork_ret }

/-! ## Invariants of the supervisory loop -/

/-- What holds of every state the watcher reaches from `Watcher.init fs0`,
with `l` the children alive: inside the inner loop the only child alive is
`child`, not yet marked dead; everywhere else no child is alive. The file
system is untouched until the watcher exits. -/
def Reach (fs0 : FS) (w : Watcher) (l : List Int) : Prop :=
  (w.pc = PC.exited ∨ w.fs = fs0) ∧
  match w.pc with
  | PC.wait_call => l = [w.child] ∧ w.child_dead = 0 ∧ 0 < w.child
  | PC.wait_blocked => l = [w.child] ∧ w.child_dead = 0 ∧ 0 < w.child
  | PC.read_restart => l = [w.child] ∧ w.child_dead = 0 ∧ 0 < w.child
  | PC.read_terminated => l = [w.child] ∧ w.child_dead = 0 ∧ 0 < w.child
  | PC.inner_test =>
    (w.child_dead = 0 ∧ l = [w.child] ∧ 0 < w.child) ∨ (w.child_dead ≠ 0 ∧ l = [])
  | _ => l = []

/-- Whether the event is a return of `fork`. -/
def is_fork : Event → Bool
  | Event.fork _ => true
  | _ => false

/-- Whether the event is a call of `sleep`. -/
def is_sleep : Event → Bool
  | Event.sleep _ => true
  | _ => false

/-- Whether the event is a call of `exit`. -/
def is_exit : Event → Bool
  | Event.exit _ => true
  | _ => false

/-- Whether the event is `wait` returning the pid `c`, that is, reaping `c`. -/
def is_reap (c : Int) : Event → Bool
  | Event.wait res _ => decide (res = c)
  | _ => false

/-- Whether the event is `kill(c, SIGTERM)`. -/
def is_term (c : Int) : Event → Bool
  | Event.kill pid Sig.SIGTERM => decide (pid = c)
  | _ => false

/-- Whether some event of the list satisfies `p`. -/
def occurs (p : Event → Bool) : List Event → Bool
  | [] => false
  | e :: es => p e || occurs p es

/-- The invariant of a watcher that has been asked to terminate while waiting
for child `c`, over the state and the events since the request: it forks and
sleeps no more, waits for `c` after sending it SIGTERM, and exits only once
`c` is reaped, with status 0 and the pidfile removed from `fs0`. -/
def Draining (g : Globals) (c : Int) (fs0 : FS) (w : Watcher) (tr : List Event) : Prop :=
  w.terminated ≠ 0 ∧ w.child = c ∧ 0 < c ∧
  occurs is_fork tr = false ∧ occurs is_sleep tr = false ∧
  (occurs (is_reap c) tr = true → occurs (is_term c) tr = true) ∧
  match w.pc with
  | PC.read_restart => w.child_dead = 0 ∧ w.fs = fs0
  | PC.read_terminated => w.child_dead = 0 ∧ w.fs = fs0
  | PC.wait_call => w.child_dead = 0 ∧ w.fs = fs0 ∧ occurs (is_term c) tr = true
  | PC.wait_blocked => w.child_dead = 0 ∧ w.fs = fs0 ∧ occurs (is_term c) tr = true
  | PC.inner_test =>
    w.fs = fs0 ∧ occurs (is_term c) tr = true ∧
    (w.child_dead ≠ 0 → occurs (is_reap c) tr = true)
  | PC.check_restart =>
    w.fs = fs0 ∧ occurs (is_term c) tr = true ∧ occurs (is_reap c) tr = true
  | PC.check_terminated =>
    w.fs = fs0 ∧ occurs (is_term c) tr = true ∧ occurs (is_reap c) tr = true
  | PC.outer_test =>
    w.fs = fs0 ∧ occurs (is_term c) tr = true ∧ occurs (is_reap c) tr = true
  | PC.exited =>
    w.exit_code = 0 ∧ w.fs = rmpidfile g fs0 ∧ occurs (is_term c) tr = true ∧
    occurs (is_reap c) tr = true ∧ occurs is_exit tr = true
  | _ => False

/-- The number of program steps after which a draining watcher has sent
SIGTERM to child `c` at the latest. -/
def kill_rank (c : Int) (w : Watcher) (tr : List Event) : Nat :=
  if occurs (is_term c) tr then 0
  else match w.pc with
    | PC.read_restart => 2
    | PC.read_terminated => 1
    | _ => 0

/-- The invariant of a watcher asked to terminate, from the moment its child
is reaped: it goes through lines 225-239 and exits; `tr0` are the events up to
the reaping. -/
def Exiting (g : Globals) (oldcwd : Option String) (fs0 : FS) (tr0 : List Event)
    (w : Watcher) (tr : List Event) : Prop :=
  w.terminated ≠ 0 ∧ w.child_dead ≠ 0 ∧
  match w.pc with
  | PC.inner_test => w.fs = fs0 ∧ tr = tr0
  | PC.check_restart => w.fs = fs0 ∧ tr = tr0
  | PC.check_terminated => w.fs = fs0 ∧ tr = tr0
  | PC.outer_test => w.fs = fs0 ∧ tr = tr0
  | PC.exited => w.fs = rmpidfile g fs0 ∧ w.exit_code = 0 ∧ tr = tr0 ++ exit_events g oldcwd
  | _ => False

/-- The number of program steps after which an exiting watcher has exited at
the latest. -/
def exit_rank (w : Watcher) : Nat :=
  match w.pc with
  | PC.inner_test => 4
  | PC.check_restart => 3
  | PC.check_terminated => 2
  | PC.outer_test => 1
  | _ => 0

/-- The invariant of a watcher that has been asked to restart while waiting
for child `c` and is not asked to terminate, over the state and the events
since the request: until it forks again it neither sleeps nor exits, it waits
for `c` after sending it SIGTERM, and it goes on to `fork` only once `c` is
reaped. -/
def Restarting (c : Int) (w : Watcher) (tr : List Event) : Prop :=
  w.terminated = 0 ∧ w.restart_requested ≠ 0 ∧ 0 < c ∧
  (occurs (is_reap c) tr = true → occurs (is_term c) tr = true) ∧
  (occurs is_fork tr = true → occurs (is_reap c) tr = true) ∧
  (occurs is_fork tr = true ∨
    (w.child = c ∧ occurs is_sleep tr = false ∧ occurs is_exit tr = false ∧
      match w.pc with
      | PC.read_restart => w.child_dead = 0
      | PC.wait_call => w.child_dead = 0 ∧ occurs (is_term c) tr = true
      | PC.wait_blocked => w.child_dead = 0 ∧ occurs (is_term c) tr = true
      | PC.inner_test =>
        occurs (is_term c) tr = true ∧ (w.child_dead ≠ 0 → occurs (is_reap c) tr = true)
      | PC.check_restart => occurs (is_term c) tr = true ∧ occurs (is_reap c) tr = true
      | PC.outer_test => occurs (is_term c) tr = true ∧ occurs (is_reap c) tr = true
      | PC.fork_call => occurs (is_term c) tr = true ∧ occurs (is_reap c) tr = true
      | _ => False))

/-- The number of program steps after which a restarting watcher has sent
SIGTERM to child `c` at the latest. -/
def restart_kill_rank (c : Int) (tr : List Event) : Nat :=
  if occurs (is_term c) tr then 0 else 1

/-- The invariant of a restarting watcher from the moment its child is reaped
until it calls `fork`: it goes through lines 225-232 without doing anything
observable; `tr0` are the events up to the reaping. -/
def Respawning (tr0 : List Event) (w : Watcher) (tr : List Event) : Prop :=
  w.terminated = 0 ∧ w.restart_requested ≠ 0 ∧ w.child_dead ≠ 0 ∧ tr = tr0 ∧
  match w.pc with
  | PC.inner_test => True
  | PC.check_restart => True
  | PC.outer_test => True
  | PC.fork_call => True
  | _ => False

/-- The number of program steps after which a respawning watcher has called
`fork` at the latest. -/
def respawn_rank (w : Watcher) : Nat :=
  match w.pc with
  | PC.inner_test => 3
  | PC.check_restart => 2
  | PC.outer_test => 1
  | _ => 0

/-! ## Lemmas on printing and scanning decimal numbers -/

theorem digit_char_toNat (d : Nat) (h : d < 10) : (digit_char d).toNat = 48 + d := by
  interval_cases d <;> rfl

theorem is_digit_digit_char (d : Nat) (h : d < 10) : is_digit (digit_char d) = true := by
  simp [is_digit, digit_char_toNat d h]; omega

theorem digit_val_digit_char (d : Nat) (h : d < 10) : digit_val (digit_char d) = d := by
  simp [digit_val, digit_char_toNat d h]

theorem is_space_digit_char (d : Nat) (h : d < 10) : is_space (digit_char d) = false := by
  simp [is_space, digit_char_toNat d h]; omega

theorem digit_char_ne_minus (d : Nat) (h : d < 10) : digit_char d ≠ '-' := by
  interval_cases d <;> decide

theorem digit_char_ne_plus (d : Nat) (h : d < 10) : digit_char d ≠ '+' := by
  interval_cases d <;> decide

theorem digits_fuel_append (f n : Nat) (acc l : List Char) :
    digits_fuel f n acc ++ l = digits_fuel f n (acc ++ l) := by
  induction f generalizing n acc with
  | zero => simp [digits_fuel]
  | succ f ih =>
    simp only [digits_fuel]
    split
    · simp
    · rw [ih]; simp

theorem digits_fuel_head (f n : Nat) (acc : List Char) (h : n < f) :
    ∃ d rest, d < 10 ∧ digits_fuel f n acc = digit_char d :: rest := by
  induction f generalizing n acc with
  | zero => omega
  | succ f ih =>
    simp only [digits_fuel]
    split
    · exact ⟨n % 10, acc, Nat.mod_lt _ (by decide), rfl⟩
    · exact ih (n / 10) _ (by omega)

theorem scan_digits_digits_fuel (f n : Nat) (acc : List Char) (h : n < f) :
    ∃ k, ∀ a, scan_digits a (digits_fuel f n acc) = scan_digits (a * 10 ^ k + n) acc := by
  induction f generalizing n acc with
  | zero => omega
  | succ f ih =>
    simp only [digits_fuel]
    split
    · refine ⟨1, fun a => ?_⟩
      have hd : n % 10 < 10 := Nat.mod_lt _ (by decide)
      simp only [scan_digits, is_digit_digit_char _ hd, digit_val_digit_char _ hd, if_true]
      congr 1; omega
    · obtain ⟨k, hk⟩ := ih (n / 10) (digit_char (n % 10) :: acc) (by omega)
      refine ⟨k + 1, fun a => ?_⟩
      have hd : n % 10 < 10 := Nat.mod_lt _ (by decide)
      rw [hk]
      simp only [scan_digits, is_digit_digit_char _ hd, digit_val_digit_char _ hd, if_true]
      congr 1
      rw [pow_succ]
      have := Nat.div_add_mod n 10
      nlinarith [this]

theorem scan_nat_print_nat (n : Nat) : scan_nat (print_nat n ++ ['\n']) = some n := by
  unfold print_nat
  rw [digits_fuel_append]
  obtain ⟨d, rest, hd, hrest⟩ := digits_fuel_head (n + 1) n ([] ++ ['\n']) (by omega)
  obtain ⟨k, hk⟩ := scan_digits_digits_fuel (n + 1) n ([] ++ ['\n']) (by omega)
  have h0 := hk 0
  rw [hrest] at h0 ⊢
  simp only [scan_nat, is_digit_digit_char _ hd, if_true]
  simp only [scan_digits, is_digit_digit_char _ hd, if_true, Nat.zero_mul, Nat.zero_add] at h0
  rw [h0]
  simp [scan_digits, is_digit]

theorem skip_space_print_nat (n : Nat) (l : List Char) :
    ∃ d rest, d < 10 ∧ print_nat n ++ l = digit_char d :: rest ∧
      skip_space (print_nat n ++ l) = digit_char d :: rest := by
  unfold print_nat
  rw [digits_fuel_append]
  obtain ⟨d, rest, hd, hrest⟩ := digits_fuel_head (n + 1) n ([] ++ l) (by omega)
  refine ⟨d, rest, hd, hrest, ?_⟩
  rw [hrest]
  simp [skip_space, is_space_digit_char _ hd]

theorem scan_long_pidfile_text (p : Int) : scan_long (pidfile_text p) = some p := by
  unfold pidfile_text print_int
  split
  · rename_i hneg
    have : scan_long ('-' :: print_nat p.natAbs ++ ['\n']) = some p := by
      simp only [scan_long, List.cons_append, skip_space]
      have : is_space '-' = false := by decide
      simp only [this]
      simp [scan_nat_print_nat]
      rw [abs_of_neg hneg]; omega
    simpa using this
  · rename_i hpos
    obtain ⟨d, rest, hd, h1, h2⟩ := skip_space_print_nat p.natAbs ['\n']
    have h3 := scan_nat_print_nat p.natAbs
    simp only [scan_long, h2]
    rw [h1] at h3
    simp [digit_char_ne_minus _ hd, digit_char_ne_plus _ hd, h3]
    omega

theorem store_int_of_fits (p : Int) (hlo : INT_MIN ≤ p) (hhi : p ≤ INT_MAX) :
    store_int p = p := by
  simp only [store_int, INT_MIN, INT_MAX, LONG_MIN, LONG_MAX] at *
  rw [min_eq_right (by omega), max_eq_right (by omega)]
  omega

theorem fscanf_d_pidfile_text (p : Int) (hlo : INT_MIN ≤ p) (hhi : p ≤ INT_MAX) :
    fscanf_d (pidfile_text p) = some p := by
  simp [fscanf_d, scan_long_pidfile_text, store_int_of_fits p hlo hhi]

/-! ## The pidfile store -/

/-- C7 as stated fails. With the pidfile in a directory the process may not
change, the pidfile is writable but `unlink` fails: `writepidfile(88)` then
`rmpidfile()` leaves it in place and `getpidfilepid()` still returns 88, not
0. And where files are created without read permission the pidfile is
writable, yet after `writepidfile(88)` the call `getpidfilepid()` returns 0,
not 88. -/
theorem pidstore_writable_not_enough :
    (FS.locked example_pidfile ['7', '7', '\n']).writable example_pidfile = true ∧
    getpidfilepid example_globals
      (writepidfile example_globals (FS.locked example_pidfile ['7', '7', '\n']) 88).1 = 88 ∧
    getpidfilepid example_globals
      (rmpidfile example_globals
        (writepidfile example_globals (FS.locked example_pidfile ['7', '7', '\n']) 88).1) = 88 ∧
    getpidfilepid example_globals
      (rmpidfile example_globals (FS.locked example_pidfile ['7', '7', '\n'])) = 77 ∧
    FS.write_only.writable example_pidfile = true ∧
    (writepidfile example_globals FS.write_only 88).2 = false ∧
    getpidfilepid example_globals (writepidfile example_globals FS.write_only 88).1 = 0 := by
  decide

/-- C7 amended: with a pidfile path configured, for every process id `p` (a
`pid_t`): if the pidfile can be opened for writing and the file written can
be read back (it could be read before, or files written there are readable),
`writepidfile(p)` stores `p` as decimal ASCII followed by a newline and
`getpidfilepid()` afterwards returns exactly `p`; if `unlink` of the pidfile
succeeds then after `rmpidfile()`, whether the file had been written or not,
`getpidfilepid()` returns the not-found result 0; and if `unlink` fails,
`rmpidfile()` leaves the file system as it was. -/
theorem pidstore_round_trip (g : Globals) (fs : FS) (path : String) (p : Int)
    (hpath : g.pidfile = some path) (hlo : INT_MIN ≤ p) (hhi : p ≤ INT_MAX) :
    (fs.writable path = true →
      (fs.content path ≠ none ∨ fs.readable_written path = true) →
      (writepidfile g fs p).2 = false ∧
      (writepidfile g fs p).1.content path = some (print_int p ++ ['\n']) ∧
      getpidfilepid g (writepidfile g fs p).1 = p) ∧
    (fs.removable path = true →
      getpidfilepid g (rmpidfile g (writepidfile g fs p).1) = 0 ∧
      getpidfilepid g (rmpidfile g fs) = 0) ∧
    (fs.removable path = false → rmpidfile g fs = fs) := by
  have hscan := fscanf_d_pidfile_text p hlo hhi
  refine ⟨?_, ?_, ?_⟩
  · intro hw hr
    have hcond : ((fs.content path).isSome || fs.readable_written path) = true := by
      rcases hr with h | h
      · cases hc : fs.content path with
        | none => exact absurd hc h
        | some t => simp
      · simp [h]
    refine ⟨?_, ?_, ?_⟩
    · simp [writepidfile, FS.write, hpath, hw]
    · simp [writepidfile, FS.write, hpath, hw, hcond, pidfile_text]
    · simp [writepidfile, FS.write, getpidfilepid, hpath, hw, hcond, hscan]
  · intro hrm
    refine ⟨?_, ?_⟩
    · by_cases hw : fs.writable path = true
      · simp [writepidfile, FS.write, FS.unlink, getpidfilepid, rmpidfile, hpath, hw, hrm]
      · simp [writepidfile, FS.write, FS.unlink, getpidfilepid, rmpidfile, hpath, hw, hrm]
    · simp [FS.unlink, getpidfilepid, rmpidfile, hpath, hrm]
  · intro hrm
    simp [FS.unlink, rmpidfile, hpath, hrm]

/-- Witness of `pidstore_round_trip`: pid 4321 through `/tmp/p.pid`. -/
theorem pidstore_round_trip_witness :
    (example_globals.pidfile = some example_pidfile ∧ INT_MIN ≤ 4321 ∧
      (4321 : Int) ≤ INT_MAX ∧ FS.empty.writable example_pidfile = true ∧
      FS.empty.readable_written example_pidfile = true) ∧
    getpidfilepid example_globals (writepidfile example_globals FS.empty 4321).1 = 4321 :=
  ⟨⟨rfl, by decide, by decide, rfl, rfl⟩,
    ((pidstore_round_trip example_globals FS.empty example_pidfile 4321 rfl
      (by decide) (by decide)).1 rfl (Or.inr rfl)).2.2⟩

/-! ## Argument resolution -/

theorem parse_options_runmode (opts : List Getopt) (g : Globals) :
    (parse_options opts g).g.runmode = g.runmode := by
  induction opts generalizing g with
  | nil => rfl
  | cons o os ih =>
    simp only [parse_options]
    split_ifs <;> first | rfl | (rw [ih])

theorem parse_options_pidfile (opts : List Getopt) (g : Globals)
    (h : ∀ o ∈ opts, o.c ≠ 'p') : (parse_options opts g).g.pidfile = g.pidfile := by
  induction opts generalizing g with
  | nil => rfl
  | cons o os ih =>
    have ho : o.c ≠ 'p' := h o (List.mem_cons_self _ _)
    have hos : ∀ o ∈ os, o.c ≠ 'p' := fun o' ho' => h o' (List.mem_cons_of_mem _ ho')
    simp only [parse_options]
    split_ifs <;> first | rfl | (rw [ih _ hos])

theorem parse_options_events (opts : List Getopt) (g : Globals)
    (h : (parse_options opts g).exit = none) : (parse_options opts g).events = [] := by
  induction opts generalizing g with
  | nil => rfl
  | cons o os ih =>
    simp only [parse_options] at h ⊢
    split_ifs at h ⊢ <;> exact ih _ h

theorem parse_rest_events (g : Globals) (args : List String)
    (h : (parse_rest g args).exit = none) : (parse_rest g args).events = [] := by
  simp only [parse_rest] at h ⊢
  split_ifs at h ⊢ <;> rfl

theorem parse_arguments_some (opts : List Getopt) (args : List String) (code : Int)
    (h : (parse_options opts Globals.init).exit = some code) :
    parse_arguments opts args =
      { g := (parse_options opts Globals.init).g,
        events := (parse_options opts Globals.init).events, exit := some code } := by
  simp only [parse_arguments, h]

theorem parse_arguments_none (opts : List Getopt) (args : List String)
    (h : (parse_options opts Globals.init).exit = none) :
    parse_arguments opts args = parse_rest (parse_options opts Globals.init).g args := by
  simp only [parse_arguments, h]

theorem parse_arguments_events (opts : List Getopt) (args : List String)
    (h : (parse_arguments opts args).exit = none) : (parse_arguments opts args).events = [] := by
  cases hp : (parse_options opts Globals.init).exit with
  | some code => rw [parse_arguments_some opts args code hp] at h; simp at h
  | none =>
    rw [parse_arguments_none opts args hp] at h ⊢
    exact parse_rest_events _ _ h

theorem set_runmode_pidfile (g : Globals) (word : String) :
    (set_runmode g word).pidfile = g.pidfile := by
  simp only [set_runmode]; split_ifs <;> rfl

theorem parse_rest_no_pidfile (g : Globals) (args : List String) (hp : g.pidfile = none)
    (hmode : (parse_rest g args).g.runmode = Runmode.Stop ∨
      (parse_rest g args).g.runmode = Runmode.Restart) :
    (parse_rest g args).exit = some 1 ∧
    (parse_rest g args).events = [Event.log Msg.must_supply_pidfile, Event.exit 1] := by
  have hg1 : (match args with
      | [] => g
      | word :: _ => set_runmode g word).pidfile = none := by
    cases args with
    | nil => exact hp
    | cons a as => simpa [set_runmode_pidfile] using hp
  simp only [parse_rest] at hmode ⊢
  split_ifs at hmode ⊢ <;> simp_all

/-- C9: for every command line whose run mode (the value `parse_arguments`
gives `runmode`) is stop or restart and in which no pidfile option was met,
the program exits with status 1 inside `parse_arguments`, after printing only
the missing-pidfile message: no `kill` is issued and the file system is not
touched, `main` never reaching its stop/restart branches. -/
theorem stop_restart_without_pidfile (env : Env) (fs : FS) (opts : List Getopt)
    (args : List String)
    (hmode : (parse_arguments opts args).g.runmode = Runmode.Stop ∨
      (parse_arguments opts args).g.runmode = Runmode.Restart)
    (hnop : ∀ o ∈ opts, o.c ≠ 'p') :
    (parse_arguments opts args).exit = some 1 ∧
    (main env fs opts args).outcome = Outcome.exit 1 ∧
    (main env fs opts args).events = [Event.log Msg.must_supply_pidfile, Event.exit 1] ∧
    (∀ pid sig, Event.kill pid sig ∉ (main env fs opts args).events) ∧
    (main env fs opts args).fs = fs := by
  have hrm := parse_options_runmode opts Globals.init
  have hpf := parse_options_pidfile opts Globals.init hnop
  have key : (parse_arguments opts args).exit = some 1 ∧
      (parse_arguments opts args).events =
        [Event.log Msg.must_supply_pidfile, Event.exit 1] := by
    cases hp : (parse_options opts Globals.init).exit with
    | some code =>
      rw [parse_arguments_some opts args code hp] at hmode
      simp only [hrm] at hmode
      simp [Globals.init] at hmode
    | none =>
      rw [parse_arguments_none opts args hp] at hmode ⊢
      exact parse_rest_no_pidfile _ args (by rw [hpf]; rfl) hmode
  obtain ⟨hexit, hev⟩ := key
  have hmain : main env fs opts args =
      { events := (parse_arguments opts args).events, fs := fs, outcome := Outcome.exit 1 } := by
    simp only [main, hexit]
  refine ⟨hexit, ?_, ?_, ?_, ?_⟩
  · rw [hmain]
  · rw [hmain]; exact hev
  · intro pid sig; rw [hmain]; simp [hev]
  · rw [hmain]

/-- Witness of `stop_restart_without_pidfile`: the command line `stop`. -/
theorem stop_restart_without_pidfile_witness :
    ((parse_arguments [] ["stop"]).g.runmode = Runmode.Stop ∨
      (parse_arguments [] ["stop"]).g.runmode = Runmode.Restart) ∧
    (main (Env.succeeding 77) FS.empty [] ["stop"]).outcome = Outcome.exit 1 ∧
    (main (Env.succeeding 77) FS.empty [] ["stop"]).events
      = [Event.log Msg.must_supply_pidfile, Event.exit 1] :=
  ⟨Or.inl (by decide),
    (stop_restart_without_pidfile (Env.succeeding 77) FS.empty [] ["stop"]
      (Or.inl (by decide)) (by simp)).2.1,
    (stop_restart_without_pidfile (Env.succeeding 77) FS.empty [] ["stop"]
      (Or.inl (by decide)) (by simp)).2.2.1⟩


/-! ## Launcher and controller -/

theorem main_of_parsed (env : Env) (fs : FS) (opts : List Getopt) (args : List String)
    (hparse : (parse_arguments opts args).exit = none) :
    main env fs opts args = dispatch env (parse_arguments opts args).g fs := by
  have hev := parse_arguments_events opts args hparse
  simp only [main, hparse, hev, List.nil_append]

theorem dispatch_start_refuse (env : Env) (g : Globals) (fs : FS) (p : Int)
    (hmode : g.runmode = Runmode.Start) (hp : getpidfilepid g fs = p) (hpid : p ≠ 0)
    (hk : env.kill_ret p Sig.zero = 0 ∨ env.kill_errno p Sig.zero ≠ ESRCH) :
    dispatch env g fs =
      { events := [Event.kill p Sig.zero, Event.log (Msg.already_running p), Event.exit 1],
        fs := fs, outcome := Outcome.exit 1 } := by
  simp only [dispatch, hmode, hp]
  rw [if_pos trivial, if_pos hpid, if_pos hk]

theorem dispatch_start_stale (env : Env) (g : Globals) (fs : FS) (p : Int)
    (hmode : g.runmode = Runmode.Start) (hp : getpidfilepid g fs = p) (hpid : p ≠ 0)
    (hk : ¬(env.kill_ret p Sig.zero = 0 ∨ env.kill_errno p Sig.zero ≠ ESRCH)) :
    dispatch env g fs =
      { events := [Event.kill p Sig.zero, Event.log (Msg.stale_ignored p)] ++
          (do_spawn env g fs).events,
        fs := (do_spawn env g fs).fs, outcome := (do_spawn env g fs).outcome } := by
  simp only [dispatch, hmode, hp]
  rw [if_pos trivial, if_pos hpid, if_neg hk]

theorem do_spawn_events_head (env : Env) (g : Globals) (fs : FS) :
    ∃ rest, (do_spawn env g fs).events = Event.fork env.fork_ret :: rest := by
  simp only [do_spawn]
  split_ifs <;> simp

/-- C4, evaluated where the probe fails with EPERM: for `stop` and for
`restart` with a pidfile holding pid 1 and `kill(1, 0)` failing with EPERM,
the controller prints the stale-pidfile warning, removes the pidfile and
exits with status 0 (no SIGTERM or SIGHUP is sent). -/
theorem control_eperm_removes_pidfile :
    (main (Env.failing EPERM 77) (FS.single example_pidfile ['1', '\n'])
        [⟨'p', example_pidfile⟩] ["stop"]).events
      = [Event.kill 1 Sig.zero, Event.log (Msg.stale_removed 1), Event.exit 0] ∧
    (main (Env.failing EPERM 77) (FS.single example_pidfile ['1', '\n'])
        [⟨'p', example_pidfile⟩] ["stop"]).outcome = Outcome.exit 0 ∧
    (main (Env.failing EPERM 77) (FS.single example_pidfile ['1', '\n'])
        [⟨'p', example_pidfile⟩] ["stop"]).fs.content example_pidfile = none ∧
    (main (Env.failing EPERM 77) (FS.single example_pidfile ['1', '\n'])
        [⟨'p', example_pidfile⟩] ["restart"]).events
      = [Event.kill 1 Sig.zero, Event.log (Msg.stale_removed 1), Event.exit 0] ∧
    (main (Env.failing EPERM 77) (FS.single example_pidfile ['1', '\n'])
        [⟨'p', example_pidfile⟩] ["restart"]).outcome = Outcome.exit 0 ∧
    (main (Env.failing EPERM 77) (FS.single example_pidfile ['1', '\n'])
        [⟨'p', example_pidfile⟩] ["restart"]).fs.content example_pidfile = none := by
  decide

/-- C5 as stated fails: with a pidfile holding 4321, the probe `kill(4321, 0)`
failing with ESRCH and `fork` failing, the launcher exits with status 1 and
no supervisor has been forked, although the probe neither succeeded nor
failed with another error; nor does it overwrite the pidfile and exit 0. -/
theorem start_stale_fork_fails :
    getpidfilepid example_globals (FS.single example_pidfile ['4', '3', '2', '1', '\n']) = 4321 ∧
    (Env.failing ESRCH (-1)).kill_ret 4321 Sig.zero ≠ 0 ∧
    (Env.failing ESRCH (-1)).kill_errno 4321 Sig.zero = ESRCH ∧
    (main (Env.failing ESRCH (-1)) (FS.single example_pidfile ['4', '3', '2', '1', '\n'])
        [⟨'p', example_pidfile⟩] ["start", "/bin/false"]).events
      = [Event.kill 4321 Sig.zero, Event.log (Msg.stale_ignored 4321), Event.fork (-1),
          Event.log Msg.spawn_fork_failed, Event.exit 1] ∧
    (main (Env.failing ESRCH (-1)) (FS.single example_pidfile ['4', '3', '2', '1', '\n'])
        [⟨'p', example_pidfile⟩] ["start", "/bin/false"]).outcome = Outcome.exit 1 ∧
    (main (Env.failing ESRCH (-1)) (FS.single example_pidfile ['4', '3', '2', '1', '\n'])
        [⟨'p', example_pidfile⟩] ["start", "/bin/false"]).fs.content example_pidfile
      = some ['4', '3', '2', '1', '\n'] := by
  decide

/-- C5 amended: for `start` with a pidfile that resolves to a pid `p != 0`,
the launcher exits with status 1 without calling `fork` if and only if the
probe `kill(p, 0)` succeeds or fails with an error other than ESRCH. When the
probe fails with ESRCH the launcher emits the stale-pidfile warning and calls
`fork`; if `fork` returns a pid to the launcher it exits 0, having replaced
the pidfile by that pid when the pidfile is writable; if `fork` fails it
exits 1. -/
theorem start_with_pidfile (env : Env) (fs : FS) (opts : List Getopt) (args : List String)
    (hparse : (parse_arguments opts args).exit = none)
    (hmode : (parse_arguments opts args).g.runmode = Runmode.Start)
    (hpid : getpidfilepid (parse_arguments opts args).g fs ≠ 0) :
    (((main env fs opts args).outcome = Outcome.exit 1 ∧
        ∀ v, Event.fork v ∉ (main env fs opts args).events) ↔
      (env.kill_ret (getpidfilepid (parse_arguments opts args).g fs) Sig.zero = 0 ∨
        env.kill_errno (getpidfilepid (parse_arguments opts args).g fs) Sig.zero ≠ ESRCH)) ∧
    (env.kill_ret (getpidfilepid (parse_arguments opts args).g fs) Sig.zero ≠ 0 →
      env.kill_errno (getpidfilepid (parse_arguments opts args).g fs) Sig.zero = ESRCH →
      (main env fs opts args).events.take 3 =
        [Event.kill (getpidfilepid (parse_arguments opts args).g fs) Sig.zero,
          Event.log (Msg.stale_ignored (getpidfilepid (parse_arguments opts args).g fs)),
          Event.fork env.fork_ret] ∧
      (0 < env.fork_ret →
        (main env fs opts args).outcome = Outcome.exit 0 ∧
        Event.stdout_pid env.fork_ret ∈ (main env fs opts args).events ∧
        ∀ path, (parse_arguments opts args).g.pidfile = some path →
          fs.writable path = true →
          (main env fs opts args).fs.content path = some (print_int env.fork_ret ++ ['\n'])) ∧
      (env.fork_ret < 0 → (main env fs opts args).outcome = Outcome.exit 1)) := by
  rw [main_of_parsed env fs opts args hparse]
  generalize (parse_arguments opts args).g = g at hmode hpid ⊢
  generalize hp : getpidfilepid g fs = p at hpid ⊢
  refine ⟨?_, ?_⟩
  · by_cases hk : env.kill_ret p Sig.zero = 0 ∨ env.kill_errno p Sig.zero ≠ ESRCH
    · rw [dispatch_start_refuse env g fs p hmode hp hpid hk]
      simp [hk]
    · rw [dispatch_start_stale env g fs p hmode hp hpid hk]
      simp only [hk, iff_false, not_and, not_forall, not_not]
      intro _
      obtain ⟨rest, hrest⟩ := do_spawn_events_head env g fs
      exact ⟨env.fork_ret, by simp [hrest]⟩
  · intro hk1 hk2
    have hk : ¬(env.kill_ret p Sig.zero = 0 ∨ env.kill_errno p Sig.zero ≠ ESRCH) := by
      simp [hk1, hk2]
    rw [dispatch_start_stale env g fs p hmode hp hpid hk]
    refine ⟨?_, ?_, ?_⟩
    · obtain ⟨rest, hrest⟩ := do_spawn_events_head env g fs
      simp [hrest]
    · intro hf
      have h1 : ¬env.fork_ret < 0 := by omega
      have h2 : ¬env.fork_ret = 0 := by omega
      refine ⟨?_, ?_, ?_⟩
      · simp [do_spawn, h1, h2]
      · simp [do_spawn, h1, h2]
      · intro path hpath hw
        have hsome : (fs.content path).isSome = true := by
          cases hc : fs.content path with
          | some t => rfl
          | none =>
            exfalso
            apply hpid
            rw [← hp]
            simp [getpidfilepid, hpath, hc]
        simp [do_spawn, h1, h2, writepidfile, FS.write, hpath, hw, hsome, pidfile_text]
    · intro hf
      simp [do_spawn, hf]

/-- Witness of `start_with_pidfile`: a stale pidfile holding 4321, `fork`
returning 77. -/
theorem start_with_pidfile_witness :
    ((parse_arguments [⟨'p', example_pidfile⟩] ["start", "/bin/false"]).exit = none ∧
      (parse_arguments [⟨'p', example_pidfile⟩] ["start", "/bin/false"]).g.runmode
        = Runmode.Start ∧
      getpidfilepid (parse_arguments [⟨'p', example_pidfile⟩] ["start", "/bin/false"]).g
        (FS.single example_pidfile ['4', '3', '2', '1', '\n']) ≠ 0) ∧
    (main (Env.failing ESRCH 77) (FS.single example_pidfile ['4', '3', '2', '1', '\n'])
      [⟨'p', example_pidfile⟩] ["start", "/bin/false"]).outcome = Outcome.exit 0 :=
  ⟨⟨by decide, by decide, by decide⟩,
    (((start_with_pidfile (Env.failing ESRCH 77)
      (FS.single example_pidfile ['4', '3', '2', '1', '\n'])
      [⟨'p', example_pidfile⟩] ["start", "/bin/false"]
      (by decide) (by decide) (by decide)).2 (by decide) (by decide)).2.1 (by decide)).1⟩

/-- C6 as stated fails: for `stop` with a pidfile holding `-5`, the content is
read as pid -5; the controller probes it with `kill(-5, 0)` and, the probe
succeeding, sends SIGTERM to -5 and exits with status 0. -/
theorem stop_negative_pidfile_signals :
    getpidfilepid example_globals (FS.single example_pidfile ['-', '5', '\n']) = -5 ∧
    (main (Env.succeeding 77) (FS.single example_pidfile ['-', '5', '\n'])
        [⟨'p', example_pidfile⟩] ["stop"]).events
      = [Event.kill (-5) Sig.zero, Event.kill (-5) Sig.SIGTERM, Event.exit 0] ∧
    (main (Env.succeeding 77) (FS.single example_pidfile ['-', '5', '\n'])
        [⟨'p', example_pidfile⟩] ["stop"]).outcome = Outcome.exit 0 := by
  decide

/-- C6 amended: for `stop` and `restart`, whenever the configured pidfile is
missing or its content has nothing a `%d` conversion matches (it is empty or
non-numeric), the controller reports a fatal error and exits with status 1
without any `kill`, neither the probe nor SIGTERM/SIGHUP. A content that
`%d` reads as a non-zero number, negative ones included, is taken as the pid
and probed. -/
theorem control_unreadable_pidfile (env : Env) (fs : FS) (opts : List Getopt)
    (args : List String)
    (hparse : (parse_arguments opts args).exit = none)
    (hmode : (parse_arguments opts args).g.runmode = Runmode.Stop ∨
      (parse_arguments opts args).g.runmode = Runmode.Restart) :
    ((∀ path, (parse_arguments opts args).g.pidfile = some path →
        fs.content path = none ∨
        ∃ text, fs.content path = some text ∧ fscanf_d text = none) →
      (main env fs opts args).events = [Event.log Msg.pidfile_not_found, Event.exit 1] ∧
      (main env fs opts args).outcome = Outcome.exit 1 ∧
      (∀ pid sig, Event.kill pid sig ∉ (main env fs opts args).events) ∧
      (main env fs opts args).fs = fs) ∧
    (∀ path text v, (parse_arguments opts args).g.pidfile = some path →
      fs.content path = some text → fscanf_d text = some v → v ≠ 0 →
      (main env fs opts args).events.head? = some (Event.kill v Sig.zero)) := by
  rw [main_of_parsed env fs opts args hparse]
  generalize (parse_arguments opts args).g = g at hmode ⊢
  have hns : g.runmode ≠ Runmode.Start := by
    rcases hmode with h | h <;> simp [h]
  refine ⟨?_, ?_⟩
  · intro hbad
    have hzero : getpidfilepid g fs = 0 := by
      unfold getpidfilepid
      cases hpf : g.pidfile with
      | none => rfl
      | some path =>
        rcases hbad path hpf with h | ⟨text, h1, h2⟩
        · simp [h]
        · simp [h1, h2]
    rcases hmode with h | h <;> simp [dispatch, control, h, hzero]
  · intro path text v hpf hc hv hv0
    have hpid : getpidfilepid g fs = v := by
      simp [getpidfilepid, hpf, hc, hv]
    rcases hmode with h | h
    · simp only [dispatch, control, h, hpid, hv0]
      split_ifs <;> simp_all [ESRCH]
    · simp only [dispatch, control, h, hpid, hv0]
      split_ifs <;> simp_all [ESRCH]

/-- Witness of `control_unreadable_pidfile`: `stop` and no pidfile on disk. -/
theorem control_unreadable_pidfile_witness :
    ((parse_arguments [⟨'p', example_pidfile⟩] ["stop"]).exit = none ∧
      ((parse_arguments [⟨'p', example_pidfile⟩] ["stop"]).g.runmode = Runmode.Stop ∨
        (parse_arguments [⟨'p', example_pidfile⟩] ["stop"]).g.runmode = Runmode.Restart)) ∧
    (main (Env.succeeding 77) FS.empty [⟨'p', example_pidfile⟩] ["stop"]).events
      = [Event.log Msg.pidfile_not_found, Event.exit 1] :=
  ⟨⟨by decide, Or.inl (by decide)⟩,
    ((control_unreadable_pidfile (Env.succeeding 77) FS.empty [⟨'p', example_pidfile⟩] ["stop"]
      (by decide) (Or.inl (by decide))).1 (fun _ _ => Or.inl rfl)).1⟩

/-! ## The supervisory loop: general lemmas -/

theorem run_nil (g : Globals) (oldcwd : Option String) (w : Watcher) :
    run g oldcwd w [] = (w, []) := rfl

theorem run_cons (g : Globals) (oldcwd : Option String) (w : Watcher) (i : Input)
    (is : List Input) :
    run g oldcwd w (i :: is) =
      ((run g oldcwd (step g oldcwd w i).1 is).1,
        (step g oldcwd w i).2 ++ (run g oldcwd (step g oldcwd w i).1 is).2) := rfl

theorem run_append (g : Globals) (oldcwd : Option String) (w : Watcher)
    (xs ys : List Input) :
    run g oldcwd w (xs ++ ys) =
      ((run g oldcwd (run g oldcwd w xs).1 ys).1,
        (run g oldcwd w xs).2 ++ (run g oldcwd (run g oldcwd w xs).1 ys).2) := by
  induction xs generalizing w with
  | nil => simp [run_nil]
  | cons i is ih => simp [run_cons, ih, List.append_assoc]

theorem ticks_cons (i : Input) (is : List Input) : ticks (i :: is) = ticks [i] + ticks is := by
  cases i <;> simp [ticks]
  omega

/-- A property of state and trace kept by every step on an admissible input
holds along every run over admissible inputs. -/
theorem run_invariant (g : Globals) (oldcwd : Option String)
    (P : Watcher → List Event → Prop) (ok : Input → Prop)
    (hstep : ∀ w tr i, ok i → P w tr →
      P (step g oldcwd w i).1 (tr ++ (step g oldcwd w i).2)) :
    ∀ ins w tr, (∀ i ∈ ins, ok i) → P w tr →
      P (run g oldcwd w ins).1 (tr ++ (run g oldcwd w ins).2) := by
  intro ins
  induction ins with
  | nil => intro w tr _ h; simpa [run_nil] using h
  | cons i is ih =>
    intro w tr hok h
    rw [run_cons]
    have h1 := hstep w tr i (hok i (List.mem_cons_self _ _)) h
    have h2 := ih (step g oldcwd w i).1 (tr ++ (step g oldcwd w i).2)
      (fun j hj => hok j (List.mem_cons_of_mem _ hj)) h1
    simpa [List.append_assoc] using h2

/-- A measure that every program step lowers (until it is 0) and no other
admissible input raises is 0 after at least that many program steps. -/
theorem run_rank (g : Globals) (oldcwd : Option String)
    (P : Watcher → List Event → Prop) (ok : Input → Prop)
    (rank : Watcher → List Event → Nat)
    (hstep : ∀ w tr i, ok i → P w tr →
      P (step g oldcwd w i).1 (tr ++ (step g oldcwd w i).2))
    (hrank : ∀ w tr i, ok i → P w tr →
      rank (step g oldcwd w i).1 (tr ++ (step g oldcwd w i).2) = 0 ∨
      rank (step g oldcwd w i).1 (tr ++ (step g oldcwd w i).2) + ticks [i] ≤ rank w tr) :
    ∀ ins w tr, (∀ i ∈ ins, ok i) → P w tr → rank w tr ≤ ticks ins →
      rank (run g oldcwd w ins).1 (tr ++ (run g oldcwd w ins).2) = 0 := by
  intro ins
  induction ins with
  | nil =>
    intro w tr _ _ h
    simp only [ticks] at h
    simp only [run_nil, List.append_nil]
    omega
  | cons i is ih =>
    intro w tr hok h hr
    rw [run_cons]
    have h1 := hstep w tr i (hok i (List.mem_cons_self _ _)) h
    have h3 : rank (step g oldcwd w i).1 (tr ++ (step g oldcwd w i).2) ≤ ticks is := by
      rw [ticks_cons] at hr
      rcases hrank w tr i (hok i (List.mem_cons_self _ _)) h with h0 | h0 <;> omega
    have h2 := ih (step g oldcwd w i).1 (tr ++ (step g oldcwd w i).2)
      (fun j hj => hok j (List.mem_cons_of_mem _ hj)) h1 h3
    simpa [List.append_assoc] using h2

theorem live_children_append (l : List Int) (xs ys : List Event) :
    live_children l (xs ++ ys) = live_children (live_children l xs) ys := by
  induction xs generalizing l with
  | nil => rfl
  | cons e es ih => cases e <;> simp [live_children, ih]

theorem live_children_exit_events (g : Globals) (oldcwd : Option String) (l : List Int) :
    live_children l (exit_events g oldcwd) = l := by
  unfold exit_events
  cases g.cwd <;> cases oldcwd <;> simp [live_children]

theorem reach_step (g : Globals) (oldcwd : Option String) (fs0 : FS) (w : Watcher)
    (l : List Int) (i : Input) (h : Reach fs0 w l) :
    Reach fs0 (step g oldcwd w i).1 (live_children l (step g oldcwd w i).2) := by
  obtain ⟨pc, t, r, c, cd, ec, fs⟩ := w
  cases i with
  | signal s =>
    cases pc <;> cases s <;>
      simp_all [Reach, step, deliver, wait_returned, live_children]
    all_goals
      obtain ⟨_, _, _, hc⟩ := h
      have hne : ¬((-1 : Int) = c) := by omega
      simp_all [live_children]
      omega
  | ret v st =>
    cases pc <;> simp_all [Reach, step, wait_returned, live_children] <;>
      (try split_ifs) <;> simp_all [live_children] <;> omega
  | tick =>
    cases pc <;> simp_all [Reach, step, watcher_exit, live_children] <;>
      (try split_ifs) <;> simp_all [live_children]
    cases g.cwd <;> cases oldcwd <;> simp [live_children]

theorem reach_run (g : Globals) (oldcwd : Option String) (fs : FS) (ins : List Input) :
    Reach fs (run g oldcwd (Watcher.init fs) ins).1
      (live_children [] (run g oldcwd (Watcher.init fs) ins).2) := by
  have h := run_invariant g oldcwd (fun w tr => Reach fs w (live_children [] tr))
    (fun _ => True)
    (fun w tr i _ hP => by
      simp only [live_children_append]
      exact reach_step g oldcwd fs w _ i hP)
    ins (Watcher.init fs) [] (fun _ _ => trivial)
    (by simp [Reach, Watcher.init, live_children])
  simpa using h


/-! ## The supervisory loop: one child at a time -/

/-- C8: at every point of every supervisor run at most one supervised child
is alive; a child that is alive is the current `child`, and the watcher is
then inside the inner wait loop with `child_dead` still 0 (the loop is left
only once `wait` has returned that child's pid); and whenever the next step
of the watcher makes `fork` return, no child is alive. -/
theorem at_most_one_child (g : Globals) (oldcwd : Option String) (fs : FS)
    (ins : List Input) :
    (live_children [] (run g oldcwd (Watcher.init fs) ins).2).length ≤ 1 ∧
    (∀ c ∈ live_children [] (run g oldcwd (Watcher.init fs) ins).2,
      c = (run g oldcwd (Watcher.init fs) ins).1.child ∧
      in_wait_loop (run g oldcwd (Watcher.init fs) ins).1.pc = true ∧
      (run g oldcwd (Watcher.init fs) ins).1.child_dead = 0) ∧
    (∀ i v, Event.fork v ∈ (step g oldcwd (run g oldcwd (Watcher.init fs) ins).1 i).2 →
      live_children [] (run g oldcwd (Watcher.init fs) ins).2 = []) := by
  have h := reach_run g oldcwd fs ins
  generalize (run g oldcwd (Watcher.init fs) ins).1 = w at h ⊢
  generalize live_children [] (run g oldcwd (Watcher.init fs) ins).2 = l at h ⊢
  obtain ⟨pc, t, r, c, cd, ec, fs1⟩ := w
  refine ⟨?_, ?_, ?_⟩
  · cases pc <;> simp_all [Reach] <;> rcases h.2 with h' | h' <;> simp [h']
  · intro c' hc'
    cases pc <;> simp_all [Reach, in_wait_loop] <;> rcases h.2 with h' | h' <;> simp_all
  · intro i v hv
    cases pc <;> cases i <;>
      simp_all [Reach, step, wait_returned, watcher_exit, exit_events] <;>
      (try split_ifs at hv) <;> simp_all

/-! ## The supervisory loop: termination requests -/

theorem occurs_append (p : Event → Bool) (xs ys : List Event) :
    occurs p (xs ++ ys) = (occurs p xs || occurs p ys) := by
  induction xs with
  | nil => simp [occurs]
  | cons e es ih => simp [occurs, ih, Bool.or_assoc]

theorem exit_events_occurs (g : Globals) (oldcwd : Option String) (p : Event → Bool)
    (hlog : p (Event.log Msg.watcher_exiting) = false) (hchdir : ∀ d, p (Event.chdir d) = false) :
    occurs p (exit_events g oldcwd) = p (Event.exit 0) := by
  unfold exit_events
  cases g.cwd <;> cases oldcwd <;> simp [occurs, hlog, hchdir]

theorem exit_events_fork (g : Globals) (oldcwd : Option String) :
    occurs is_fork (exit_events g oldcwd) = false :=
  exit_events_occurs g oldcwd _ rfl (fun _ => rfl)

theorem exit_events_sleep (g : Globals) (oldcwd : Option String) :
    occurs is_sleep (exit_events g oldcwd) = false :=
  exit_events_occurs g oldcwd _ rfl (fun _ => rfl)

theorem exit_events_reap (g : Globals) (oldcwd : Option String) (c : Int) :
    occurs (is_reap c) (exit_events g oldcwd) = false :=
  exit_events_occurs g oldcwd _ rfl (fun _ => rfl)

theorem exit_events_term (g : Globals) (oldcwd : Option String) (c : Int) :
    occurs (is_term c) (exit_events g oldcwd) = false :=
  exit_events_occurs g oldcwd _ rfl (fun _ => rfl)

theorem exit_events_exit (g : Globals) (oldcwd : Option String) :
    occurs is_exit (exit_events g oldcwd) = true :=
  exit_events_occurs g oldcwd _ rfl (fun _ => rfl)

theorem draining_step (g : Globals) (oldcwd : Option String) (c : Int) (fs0 : FS)
    (w : Watcher) (tr : List Event) (i : Input) (h : Draining g c fs0 w tr) :
    Draining g c fs0 (step g oldcwd w i).1 (tr ++ (step g oldcwd w i).2) := by
  obtain ⟨pc, t, r, ch, cd, ec, fs⟩ := w
  obtain ⟨ht, hch, hc, hnf, hns, hrk, hpc⟩ := h
  simp only at ht hch
  subst hch
  have hne : ¬((-1 : Int) = ch) := by omega
  cases i with
  | signal s =>
    cases pc <;> cases s <;> simp only [Draining] at hpc <;>
      simp only [step, deliver, wait_returned, hne, if_false, Draining, List.append_nil,
        occurs_append] <;>
      simp_all [occurs, is_fork, is_sleep, is_reap, is_term, is_exit]
  | ret v st =>
    cases pc <;> simp only [Draining] at hpc <;>
      simp only [step, wait_returned, Draining, List.append_nil, occurs_append] <;>
      (try split_ifs) <;>
      simp_all [occurs, is_fork, is_sleep, is_reap, is_term, is_exit]
  | tick =>
    cases pc <;> simp only [Draining] at hpc <;>
      simp only [step, watcher_exit, Draining, List.append_nil, occurs_append] <;>
      (try split_ifs) <;>
      simp_all [occurs, is_fork, is_sleep, is_reap, is_term, is_exit,
        exit_events_fork, exit_events_sleep, exit_events_reap, exit_events_exit,
        exit_events_term]
    cases g.cwd <;> cases oldcwd <;> simp [occurs, is_fork, is_sleep, is_exit]

theorem draining_run (g : Globals) (oldcwd : Option String) (c : Int) (fs0 : FS)
    (ins : List Input) (w : Watcher) (tr : List Event) (h : Draining g c fs0 w tr) :
    Draining g c fs0 (run g oldcwd w ins).1 (tr ++ (run g oldcwd w ins).2) :=
  run_invariant g oldcwd (Draining g c fs0) (fun _ => True)
    (fun w tr i _ hP => draining_step g oldcwd c fs0 w tr i hP) ins w tr
    (fun _ _ => trivial) h

theorem kill_rank_step (g : Globals) (oldcwd : Option String) (c : Int) (fs0 : FS)
    (w : Watcher) (tr : List Event) (i : Input) (h : Draining g c fs0 w tr) :
    kill_rank c (step g oldcwd w i).1 (tr ++ (step g oldcwd w i).2) = 0 ∨
    kill_rank c (step g oldcwd w i).1 (tr ++ (step g oldcwd w i).2) + ticks [i]
      ≤ kill_rank c w tr := by
  obtain ⟨pc, t, r, ch, cd, ec, fs⟩ := w
  obtain ⟨ht, hch, hc, hnf, hns, hrk, hpc⟩ := h
  simp only at ht hch
  subst hch
  have hne : ¬((-1 : Int) = ch) := by omega
  by_cases hk : occurs (is_term ch) tr = true
  · left
    simp [kill_rank, occurs_append, hk]
  · cases i with
    | signal s =>
      cases pc <;> cases s <;> simp only [Draining] at hpc <;>
        simp_all [kill_rank, step, deliver, wait_returned, ticks, occurs_append, occurs,
          is_term]
    | ret v st =>
      cases pc <;> simp only [Draining] at hpc <;>
        simp_all [kill_rank, step, wait_returned, ticks, occurs_append, occurs, is_term]
    | tick =>
      cases pc <;> simp only [Draining] at hpc <;>
        simp_all [kill_rank, step, ticks, occurs_append, occurs, is_term] <;>
        (try split_ifs) <;> simp_all [occurs, is_term]

theorem kill_rank_zero (g : Globals) (c : Int) (fs0 : FS) (w : Watcher) (tr : List Event)
    (h : Draining g c fs0 w tr) (hr : kill_rank c w tr = 0) :
    occurs (is_term c) tr = true := by
  obtain ⟨pc, t, r, ch, cd, ec, fs⟩ := w
  obtain ⟨ht, hch, hc, hnf, hns, hrk, hpc⟩ := h
  by_cases hk : occurs (is_term c) tr = true
  · exact hk
  · cases pc <;> simp_all [kill_rank, Draining]

theorem exiting_step (g : Globals) (oldcwd : Option String) (fs0 : FS) (tr0 : List Event)
    (w : Watcher) (tr : List Event) (i : Input) (h : Exiting g oldcwd fs0 tr0 w tr) :
    Exiting g oldcwd fs0 tr0 (step g oldcwd w i).1 (tr ++ (step g oldcwd w i).2) := by
  obtain ⟨pc, t, r, ch, cd, ec, fs⟩ := w
  obtain ⟨ht, hcd, hpc⟩ := h
  cases i with
  | signal s =>
    cases pc <;> cases s <;> simp only [Exiting] at hpc <;>
      simp_all [Exiting, step, deliver]
  | ret v st =>
    cases pc <;> simp only [Exiting] at hpc <;> simp_all [Exiting, step]
  | tick =>
    cases pc <;> simp only [Exiting] at hpc <;>
      simp_all [Exiting, step, watcher_exit] <;> (try split_ifs) <;> simp_all

theorem exit_rank_step (g : Globals) (oldcwd : Option String) (fs0 : FS) (tr0 : List Event)
    (w : Watcher) (tr : List Event) (i : Input) (h : Exiting g oldcwd fs0 tr0 w tr) :
    exit_rank (step g oldcwd w i).1 = 0 ∨
    exit_rank (step g oldcwd w i).1 + ticks [i] ≤ exit_rank w := by
  obtain ⟨pc, t, r, ch, cd, ec, fs⟩ := w
  obtain ⟨ht, hcd, hpc⟩ := h
  cases i with
  | signal s =>
    cases pc <;> cases s <;> simp only [Exiting] at hpc <;>
      simp_all [exit_rank, step, deliver, ticks]
  | ret v st =>
    cases pc <;> simp only [Exiting] at hpc <;> simp_all [exit_rank, step, ticks]
  | tick =>
    cases pc <;> simp only [Exiting] at hpc <;>
      simp_all [exit_rank, step, watcher_exit, ticks] <;> (try split_ifs) <;>
      simp_all [exit_rank]

theorem exiting_exited (g : Globals) (oldcwd : Option String) (fs0 : FS) (tr0 : List Event)
    (w : Watcher) (tr : List Event) (h : Exiting g oldcwd fs0 tr0 w tr)
    (hr : exit_rank w = 0) :
    w.pc = PC.exited ∧ w.exit_code = 0 ∧ w.fs = rmpidfile g fs0 ∧
      tr = tr0 ++ exit_events g oldcwd := by
  obtain ⟨pc, t, r, ch, cd, ec, fs⟩ := w
  obtain ⟨ht, hcd, hpc⟩ := h
  cases pc <;> simp_all [exit_rank, Exiting]


theorem exiting_after_reap (g : Globals) (oldcwd : Option String) (fs0 : FS) (w : Watcher)
    (st : Int) (tail : List Input) (hpc : w.pc = PC.wait_blocked) (ht : w.terminated ≠ 0)
    (hfs : w.fs = fs0) (htail : 4 ≤ ticks tail) :
    (run g oldcwd w (Input.ret w.child st :: tail)).1.pc = PC.exited ∧
    (run g oldcwd w (Input.ret w.child st :: tail)).1.exit_code = 0 ∧
    (run g oldcwd w (Input.ret w.child st :: tail)).1.fs = rmpidfile g fs0 ∧
    (run g oldcwd w (Input.ret w.child st :: tail)).2 =
      [Event.wait w.child st, Event.log (Msg.watcher_child_died (WEXITSTATUS st))] ++
        exit_events g oldcwd := by
  obtain ⟨pc, t, r, ch, cd, ec, fs⟩ := w
  simp only at hpc ht hfs
  subst hpc
  have hstep : step g oldcwd ⟨PC.wait_blocked, t, r, ch, cd, ec, fs⟩ (Input.ret ch st) =
      (⟨PC.inner_test, t, r, ch, 1, ec, fs⟩,
        [Event.wait ch st, Event.log (Msg.watcher_child_died (WEXITSTATUS st))]) := by
    simp [step, wait_returned]
  have h0 : Exiting g oldcwd fs0
      [Event.wait ch st, Event.log (Msg.watcher_child_died (WEXITSTATUS st))]
      ⟨PC.inner_test, t, r, ch, 1, ec, fs⟩
      [Event.wait ch st, Event.log (Msg.watcher_child_died (WEXITSTATUS st))] := by
    simp [Exiting, ht, hfs]
  have hinv := run_invariant g oldcwd (Exiting g oldcwd fs0
      [Event.wait ch st, Event.log (Msg.watcher_child_died (WEXITSTATUS st))]) (fun _ => True)
    (fun w tr i _ hP => exiting_step g oldcwd fs0 _ w tr i hP) tail _ _
    (fun _ _ => trivial) h0
  have hrank := run_rank g oldcwd (Exiting g oldcwd fs0
      [Event.wait ch st, Event.log (Msg.watcher_child_died (WEXITSTATUS st))]) (fun _ => True)
    (fun w _ => exit_rank w)
    (fun w tr i _ hP => exiting_step g oldcwd fs0 _ w tr i hP)
    (fun w tr i _ hP => exit_rank_step g oldcwd fs0 _ w tr i hP) tail _ _
    (fun _ _ => trivial) h0 (by simpa [exit_rank] using htail)
  have hfin := exiting_exited g oldcwd fs0 _ _ _ hinv hrank
  rw [run_cons, hstep]
  exact hfin

/-- C1: in every supervisor run, when a termination signal (SIGTERM or SIGINT)
is delivered while the watcher is blocked in `wait` on its child, `wait`
returning without having reaped it, then whatever happens afterwards: the
terminate flag is set; within two program steps SIGTERM has been sent to that
child; the watcher never forks or sleeps again; as long as the child has not
been reaped the watcher stays in the inner wait loop on the same child, and
the child is reaped only after the SIGTERM; if the watcher has exited, it did
so with status 0 after reaping the child and `rmpidfile`; and once `wait`
returns the child's pid, the watcher exits with status 0 within four program
steps, having removed the pidfile and done nothing but print and restore the
working directory. -/
theorem terminate_during_wait (g : Globals) (oldcwd : Option String) (fs : FS)
    (pre post : List Input) (sig : Sig) (w : Watcher)
    (hsig : sig = Sig.SIGTERM ∨ sig = Sig.SIGINT)
    (hreach : (run g oldcwd (Watcher.init fs) pre).1 = w)
    (hblocked : w.pc = PC.wait_blocked) :
    (run g oldcwd w (Input.signal sig :: post)).1.terminated ≠ 0 ∧
    (2 ≤ ticks post →
      occurs (is_term w.child) (run g oldcwd w (Input.signal sig :: post)).2 = true) ∧
    occurs is_fork (run g oldcwd w (Input.signal sig :: post)).2 = false ∧
    occurs is_sleep (run g oldcwd w (Input.signal sig :: post)).2 = false ∧
    (occurs (is_reap w.child) (run g oldcwd w (Input.signal sig :: post)).2 = false →
      in_wait_loop (run g oldcwd w (Input.signal sig :: post)).1.pc = true ∧
      (run g oldcwd w (Input.signal sig :: post)).1.child = w.child) ∧
    (occurs (is_reap w.child) (run g oldcwd w (Input.signal sig :: post)).2 = true →
      occurs (is_term w.child) (run g oldcwd w (Input.signal sig :: post)).2 = true) ∧
    ((run g oldcwd w (Input.signal sig :: post)).1.pc = PC.exited →
      (run g oldcwd w (Input.signal sig :: post)).1.exit_code = 0 ∧
      (run g oldcwd w (Input.signal sig :: post)).1.fs = rmpidfile g fs ∧
      occurs is_exit (run g oldcwd w (Input.signal sig :: post)).2 = true ∧
      occurs (is_reap w.child) (run g oldcwd w (Input.signal sig :: post)).2 = true) ∧
    ((run g oldcwd w (Input.signal sig :: post)).1.pc = PC.wait_blocked →
      ∀ st tail, 4 ≤ ticks tail →
        (run g oldcwd (run g oldcwd w (Input.signal sig :: post)).1
          (Input.ret w.child st :: tail)).1.pc = PC.exited ∧
        (run g oldcwd (run g oldcwd w (Input.signal sig :: post)).1
          (Input.ret w.child st :: tail)).1.exit_code = 0 ∧
        (run g oldcwd (run g oldcwd w (Input.signal sig :: post)).1
          (Input.ret w.child st :: tail)).1.fs = rmpidfile g fs ∧
        (run g oldcwd (run g oldcwd w (Input.signal sig :: post)).1
          (Input.ret w.child st :: tail)).2 =
          [Event.wait w.child st, Event.log (Msg.watcher_child_died (WEXITSTATUS st))] ++
            exit_events g oldcwd) := by
  have hR := reach_run g oldcwd fs pre
  rw [hreach] at hR
  generalize live_children [] (run g oldcwd (Watcher.init fs) pre).2 = l at hR
  clear hreach
  obtain ⟨pc, t, r, c, cd, ec, fs1⟩ := w
  simp only at hblocked
  subst hblocked
  simp only [Reach] at hR
  obtain ⟨hfs, -, hcd, hc⟩ := hR
  simp only [false_or, reduceCtorEq] at hfs
  subst hfs hcd
  have hne : ¬((-1 : Int) = c) := by omega
  have hstep : ∃ t', t' ≠ 0 ∧
      step g oldcwd ⟨PC.wait_blocked, t, r, c, 0, ec, fs1⟩ (Input.signal sig) =
        (⟨PC.read_restart, t', r, c, 0, ec, fs1⟩, [Event.wait (-1) 0]) := by
    rcases hsig with h | h <;> subst h <;>
      exact ⟨1, by decide, by simp [step, deliver, wait_returned, hne]⟩
  obtain ⟨t', ht', hstep⟩ := hstep
  have h0 : Draining g c fs1 ⟨PC.read_restart, t', r, c, 0, ec, fs1⟩ [Event.wait (-1) 0] := by
    simp [Draining, ht', hc, occurs, is_fork, is_sleep, is_reap, hne]
  have hD := draining_run g oldcwd c fs1 post _ _ h0
  have hK : 2 ≤ ticks post → kill_rank c
      (run g oldcwd ⟨PC.read_restart, t', r, c, 0, ec, fs1⟩ post).1
      ([Event.wait (-1) 0] ++
        (run g oldcwd ⟨PC.read_restart, t', r, c, 0, ec, fs1⟩ post).2) = 0 := fun h2 =>
    run_rank g oldcwd (Draining g c fs1) (fun _ => True) (kill_rank c)
      (fun w tr i _ hP => draining_step g oldcwd c fs1 w tr i hP)
      (fun w tr i _ hP => kill_rank_step g oldcwd c fs1 w tr i hP) post _ _
      (fun _ _ => trivial) h0 (by simp [kill_rank, occurs, is_term]; omega)
  rw [run_cons, hstep]
  simp only
  generalize (run g oldcwd ⟨PC.read_restart, t', r, c, 0, ec, fs1⟩ post) = res at hD hK
  obtain ⟨w2, tr2⟩ := res
  simp only at hD hK ⊢
  have hD' := hD
  obtain ⟨hT, hC, -, hF, hS, hRK, hPC⟩ := hD
  refine ⟨hT, ?_, hF, hS, ?_, hRK, ?_, ?_⟩
  · intro h2
    exact kill_rank_zero g c fs1 w2 _ hD' (hK h2)
  · intro hnr
    refine ⟨?_, hC⟩
    obtain ⟨pc2, t2, r2, c2, cd2, ec2, fs2⟩ := w2
    cases pc2 <;> simp_all [in_wait_loop]
  · intro hex
    obtain ⟨pc2, t2, r2, c2, cd2, ec2, fs2⟩ := w2
    simp only at hex
    subst hex
    simp only at hPC
    exact ⟨hPC.1, hPC.2.1, hPC.2.2.2.2, hPC.2.2.2.1⟩
  · intro hwb st tail htail
    have hfs2 : w2.fs = fs1 := by
      obtain ⟨pc2, t2, r2, c2, cd2, ec2, fs2⟩ := w2
      simp only at hwb
      subst hwb
      simp only at hPC
      exact hPC.2.1
    have := exiting_after_reap g oldcwd fs1 w2 st tail hwb hT hfs2 htail
    rw [hC] at this
    exact this


/-- Witness of `terminate_during_wait`: child 100 has been forked, the watcher
is blocked in `wait`, SIGTERM arrives and two program steps follow. -/
theorem terminate_during_wait_witness :
    ((Sig.SIGTERM = Sig.SIGTERM ∨ Sig.SIGTERM = Sig.SIGINT) ∧
      (run example_globals none (Watcher.init FS.empty)
        [Input.ret 100 0, Input.tick]).1.pc = PC.wait_blocked) ∧
    occurs (is_term 100)
      (run example_globals none
        (run example_globals none (Watcher.init FS.empty) [Input.ret 100 0, Input.tick]).1
        [Input.signal Sig.SIGTERM, Input.tick, Input.tick]).2 = true :=
  ⟨⟨Or.inl rfl, by decide⟩,
    (terminate_during_wait example_globals none FS.empty [Input.ret 100 0, Input.tick]
      [Input.tick, Input.tick] Sig.SIGTERM _ (Or.inl rfl) rfl (by decide)).2.1 (by decide)⟩

/-! ## The supervisory loop: restart requests -/

theorem no_term_signal_cons (i : Input) (is : List Input) :
    no_term_signal (i :: is) = (!is_term_signal i && no_term_signal is) := by
  simp [no_term_signal]

theorem no_term_signal_mem (ins : List Input) (h : no_term_signal ins = true) :
    ∀ i ∈ ins, is_term_signal i = false := by
  intro i hi
  have := (List.all_eq_true.mp h) i hi
  simpa using this

theorem no_ret_mem (ins : List Input) (h : no_ret ins = true) :
    ∀ i ∈ ins, is_ret i = false := by
  intro i hi
  have := (List.all_eq_true.mp h) i hi
  simpa using this

theorem terminated_zero_step (g : Globals) (oldcwd : Option String) (w : Watcher)
    (i : Input) (hi : is_term_signal i = false) (h : w.terminated = 0) :
    (step g oldcwd w i).1.terminated = 0 := by
  obtain ⟨pc, t, r, ch, cd, ec, fs⟩ := w
  cases i with
  | signal s =>
    cases pc <;> cases s <;>
      simp_all [step, deliver, wait_returned, is_term_signal] <;> split_ifs <;> simp_all
  | ret v st =>
    cases pc <;> simp_all [step, wait_returned] <;> split_ifs <;> simp_all
  | tick =>
    cases pc <;> simp_all [step, watcher_exit] <;> split_ifs <;> simp_all

theorem terminated_zero_run (g : Globals) (oldcwd : Option String) (ins : List Input)
    (w : Watcher) (hins : no_term_signal ins = true) (h : w.terminated = 0) :
    (run g oldcwd w ins).1.terminated = 0 := by
  have := run_invariant g oldcwd (fun w _ => w.terminated = 0)
    (fun i => is_term_signal i = false)
    (fun w _ i hi hP => terminated_zero_step g oldcwd w i hi hP) ins w []
    (no_term_signal_mem ins hins) h
  simpa using this

theorem restarting_step (g : Globals) (oldcwd : Option String) (c : Int)
    (w : Watcher) (tr : List Event) (i : Input) (hi : is_term_signal i = false)
    (h : Restarting c w tr) :
    Restarting c (step g oldcwd w i).1 (tr ++ (step g oldcwd w i).2) := by
  obtain ⟨pc, t, r, ch, cd, ec, fs⟩ := w
  obtain ⟨ht, hr, hc, hrk, hfr, hpc⟩ := h
  simp only at ht hr
  have hne : ¬((-1 : Int) = c) := by omega
  by_cases hf : occurs is_fork tr = true
  · have hre := hfr hf
    have hki := hrk hre
    cases i with
    | signal s =>
      cases pc <;> cases s <;>
        simp_all [Restarting, step, deliver, wait_returned, is_term_signal, occurs_append] <;>
        split_ifs <;> simp_all
    | ret v st =>
      cases pc <;> simp_all [Restarting, step, wait_returned, occurs_append] <;>
        split_ifs <;> simp_all
    | tick =>
      cases pc <;> simp_all [Restarting, step, watcher_exit, occurs_append] <;>
        split_ifs <;> simp_all
  · rcases hpc with hpc | ⟨hch, hns, hne', hpc⟩
    · exact absurd hpc hf
    · simp only at hch
      subst hch
      simp only [Bool.not_eq_true] at hf
      cases i with
      | signal s =>
        cases pc <;> cases s <;> simp only [] at hpc <;>
          simp only [step, deliver, wait_returned, hne, if_false, Restarting, List.append_nil,
            occurs_append] <;>
          simp_all [occurs, is_fork, is_sleep, is_reap, is_term, is_exit, is_term_signal]
      | ret v st =>
        cases pc <;> simp only [] at hpc <;>
          simp only [step, wait_returned, Restarting, List.append_nil, occurs_append] <;>
          (try split_ifs) <;>
          simp_all [occurs, is_fork, is_sleep, is_reap, is_term, is_exit]
      | tick =>
        cases pc <;> simp only [] at hpc <;>
          simp only [step, watcher_exit, Restarting, List.append_nil, occurs_append] <;>
          (try split_ifs) <;>
          simp_all [occurs, is_fork, is_sleep, is_reap, is_term, is_exit]


theorem restart_kill_rank_step (g : Globals) (oldcwd : Option String) (c : Int)
    (w : Watcher) (tr : List Event) (i : Input) (h : Restarting c w tr) :
    restart_kill_rank c (tr ++ (step g oldcwd w i).2) = 0 ∨
    restart_kill_rank c (tr ++ (step g oldcwd w i).2) + ticks [i]
      ≤ restart_kill_rank c tr := by
  by_cases hk : occurs (is_term c) tr = true
  · left
    simp [restart_kill_rank, occurs_append, hk]
  · obtain ⟨pc, t, r, ch, cd, ec, fs⟩ := w
    obtain ⟨ht, hr, hc, hrk, hfr, hpc⟩ := h
    have hnr : ¬occurs (is_reap c) tr = true := fun h' => hk (hrk h')
    have hnf : ¬occurs is_fork tr = true := fun h' => hnr (hfr h')
    rcases hpc with hpc | ⟨hch, hns, hne', hpc⟩
    · exact absurd hpc hnf
    · simp only at hch hr
      subst hch
      cases i with
      | signal s =>
        right
        simp [restart_kill_rank, hk, ticks]
        split_ifs <;> simp
      | ret v st =>
        right
        simp [restart_kill_rank, hk, ticks]
        split_ifs <;> simp
      | tick =>
        cases pc <;> simp only [] at hpc <;>
          simp_all [restart_kill_rank, step, ticks, occurs_append, occurs, is_term]

theorem respawning_step (g : Globals) (oldcwd : Option String) (tr0 : List Event)
    (w : Watcher) (tr : List Event) (i : Input)
    (hi : is_term_signal i = false ∧ is_ret i = false) (h : Respawning tr0 w tr) :
    Respawning tr0 (step g oldcwd w i).1 (tr ++ (step g oldcwd w i).2) := by
  obtain ⟨pc, t, r, ch, cd, ec, fs⟩ := w
  obtain ⟨ht, hr, hcd, htr, hpc⟩ := h
  cases i with
  | signal s =>
    cases pc <;> cases s <;> simp only [] at hpc <;>
      simp_all [Respawning, step, deliver, is_term_signal]
  | ret v st => simp [is_ret] at hi
  | tick =>
    cases pc <;> simp only [] at hpc <;> simp_all [Respawning, step]

theorem respawn_rank_step (g : Globals) (oldcwd : Option String) (tr0 : List Event)
    (w : Watcher) (tr : List Event) (i : Input)
    (hi : is_term_signal i = false ∧ is_ret i = false) (h : Respawning tr0 w tr) :
    respawn_rank (step g oldcwd w i).1 = 0 ∨
    respawn_rank (step g oldcwd w i).1 + ticks [i] ≤ respawn_rank w := by
  obtain ⟨pc, t, r, ch, cd, ec, fs⟩ := w
  obtain ⟨ht, hr, hcd, htr, hpc⟩ := h
  cases i with
  | signal s =>
    cases pc <;> cases s <;> simp only [] at hpc <;>
      simp_all [respawn_rank, step, deliver, ticks, is_term_signal]
  | ret v st => simp [is_ret] at hi
  | tick =>
    cases pc <;> simp only [] at hpc <;> simp_all [respawn_rank, step, ticks]

theorem respawning_fork_call (tr0 : List Event) (w : Watcher) (tr : List Event)
    (h : Respawning tr0 w tr) (hr : respawn_rank w = 0) :
    w.pc = PC.fork_call ∧ tr = tr0 := by
  obtain ⟨pc, t, r, ch, cd, ec, fs⟩ := w
  obtain ⟨ht, hr', hcd, htr, hpc⟩ := h
  cases pc <;> simp_all [respawn_rank]

theorem fork_call_step (g : Globals) (oldcwd : Option String) (w : Watcher) (v st : Int)
    (hpc : w.pc = PC.fork_call) :
    (step g oldcwd w (Input.ret v st)).2.head? = some (Event.fork v) ∧
    (v = 0 → Event.execv g.exe_vptr.head? g.exe_vptr ∈ (step g oldcwd w (Input.ret v st)).2) ∧
    (0 < v → (step g oldcwd w (Input.ret v st)).1.pc = PC.wait_call ∧
      (step g oldcwd w (Input.ret v st)).1.child = v ∧
      (step g oldcwd w (Input.ret v st)).1.child_dead = 0 ∧
      (step g oldcwd w (Input.ret v st)).2 = [Event.fork v]) := by
  obtain ⟨pc, t, r, ch, cd, ec, fs⟩ := w
  simp only at hpc
  subst hpc
  refine ⟨?_, ?_, ?_⟩
  · simp only [step]; split_ifs <;> simp
  · intro hv; simp [step, hv]
  · intro hv
    have h1 : ¬v = 0 := by omega
    have h2 : ¬v < 0 := by omega
    simp [step, h1, h2]

theorem respawning_after_reap (g : Globals) (oldcwd : Option String) (w : Watcher)
    (st : Int) (tail : List Input) (hpc : w.pc = PC.wait_blocked) (ht : w.terminated = 0)
    (hr : w.restart_requested ≠ 0) (hterm : no_term_signal tail = true)
    (hret : no_ret tail = true) (htail : 3 ≤ ticks tail) :
    (run g oldcwd w (Input.ret w.child st :: tail)).1.pc = PC.fork_call ∧
    (run g oldcwd w (Input.ret w.child st :: tail)).2 =
      [Event.wait w.child st, Event.log (Msg.watcher_child_died (WEXITSTATUS st))] := by
  obtain ⟨pc, t, r, ch, cd, ec, fs⟩ := w
  simp only at hpc ht hr
  subst hpc
  have hstep : step g oldcwd ⟨PC.wait_blocked, t, r, ch, cd, ec, fs⟩ (Input.ret ch st) =
      (⟨PC.inner_test, t, r, ch, 1, ec, fs⟩,
        [Event.wait ch st, Event.log (Msg.watcher_child_died (WEXITSTATUS st))]) := by
    simp [step, wait_returned]
  have hok : ∀ i ∈ tail, is_term_signal i = false ∧ is_ret i = false := fun i hi =>
    ⟨no_term_signal_mem tail hterm i hi, no_ret_mem tail hret i hi⟩
  have h0 : Respawning
      [Event.wait ch st, Event.log (Msg.watcher_child_died (WEXITSTATUS st))]
      ⟨PC.inner_test, t, r, ch, 1, ec, fs⟩
      [Event.wait ch st, Event.log (Msg.watcher_child_died (WEXITSTATUS st))] := by
    simp [Respawning, ht, hr]
  have hinv := run_invariant g oldcwd (Respawning
      [Event.wait ch st, Event.log (Msg.watcher_child_died (WEXITSTATUS st))])
    (fun i => is_term_signal i = false ∧ is_ret i = false)
    (fun w tr i hi hP => respawning_step g oldcwd _ w tr i hi hP) tail _ _ hok h0
  have hrank := run_rank g oldcwd (Respawning
      [Event.wait ch st, Event.log (Msg.watcher_child_died (WEXITSTATUS st))])
    (fun i => is_term_signal i = false ∧ is_ret i = false)
    (fun w _ => respawn_rank w)
    (fun w tr i hi hP => respawning_step g oldcwd _ w tr i hi hP)
    (fun w tr i hi hP => respawn_rank_step g oldcwd _ w tr i hi hP) tail _ _ hok h0
    (by simpa [respawn_rank] using htail)
  have hfin := respawning_fork_call _ _ _ hinv hrank
  rw [run_cons, hstep]
  exact hfin

/-- C3: in every supervisor run that receives no termination signal, when
SIGHUP is delivered while the watcher is blocked in `wait` on its child, then
whatever happens afterwards: the restart flag is set and the terminate flag is
not; within one program step SIGTERM has been sent to that child; the child
is reaped only after that SIGTERM, and until it is reaped the watcher stays in
the inner wait loop on the same child and does not fork; up to its next
`fork` the watcher neither sleeps nor exits; and once `wait` returns the
child's pid, the watcher reaches the `fork` call of line 192 within three
program steps, having done nothing but log the child's death, where the new
process runs `execv(exe_vptr[0], exe_vptr)` and the watcher goes on to wait
for the new child. -/
theorem restart_during_wait (g : Globals) (oldcwd : Option String) (fs : FS)
    (pre post : List Input) (w : Watcher)
    (hpre : no_term_signal pre = true) (hpost : no_term_signal post = true)
    (hreach : (run g oldcwd (Watcher.init fs) pre).1 = w)
    (hblocked : w.pc = PC.wait_blocked) :
    (run g oldcwd w (Input.signal Sig.SIGHUP :: post)).1.restart_requested ≠ 0 ∧
    (run g oldcwd w (Input.signal Sig.SIGHUP :: post)).1.terminated = 0 ∧
    (1 ≤ ticks post →
      occurs (is_term w.child) (run g oldcwd w (Input.signal Sig.SIGHUP :: post)).2 = true) ∧
    (occurs (is_reap w.child) (run g oldcwd w (Input.signal Sig.SIGHUP :: post)).2 = true →
      occurs (is_term w.child) (run g oldcwd w (Input.signal Sig.SIGHUP :: post)).2 = true) ∧
    (occurs (is_reap w.child) (run g oldcwd w (Input.signal Sig.SIGHUP :: post)).2 = false →
      in_wait_loop (run g oldcwd w (Input.signal Sig.SIGHUP :: post)).1.pc = true ∧
      (run g oldcwd w (Input.signal Sig.SIGHUP :: post)).1.child = w.child ∧
      occurs is_fork (run g oldcwd w (Input.signal Sig.SIGHUP :: post)).2 = false) ∧
    (occurs is_fork (run g oldcwd w (Input.signal Sig.SIGHUP :: post)).2 = false →
      occurs is_sleep (run g oldcwd w (Input.signal Sig.SIGHUP :: post)).2 = false ∧
      occurs is_exit (run g oldcwd w (Input.signal Sig.SIGHUP :: post)).2 = false ∧
      (run g oldcwd w (Input.signal Sig.SIGHUP :: post)).1.pc ≠ PC.sleeping ∧
      (run g oldcwd w (Input.signal Sig.SIGHUP :: post)).1.pc ≠ PC.exited) ∧
    ((run g oldcwd w (Input.signal Sig.SIGHUP :: post)).1.pc = PC.wait_blocked →
      occurs is_fork (run g oldcwd w (Input.signal Sig.SIGHUP :: post)).2 = false →
      ∀ st tail, no_term_signal tail = true → no_ret tail = true → 3 ≤ ticks tail →
        (run g oldcwd (run g oldcwd w (Input.signal Sig.SIGHUP :: post)).1
          (Input.ret w.child st :: tail)).1.pc = PC.fork_call ∧
        (run g oldcwd (run g oldcwd w (Input.signal Sig.SIGHUP :: post)).1
          (Input.ret w.child st :: tail)).2 =
          [Event.wait w.child st, Event.log (Msg.watcher_child_died (WEXITSTATUS st))] ∧
        ∀ v st',
          (step g oldcwd (run g oldcwd (run g oldcwd w (Input.signal Sig.SIGHUP :: post)).1
            (Input.ret w.child st :: tail)).1 (Input.ret v st')).2.head?
            = some (Event.fork v) ∧
          (v = 0 → Event.execv g.exe_vptr.head? g.exe_vptr ∈
            (step g oldcwd (run g oldcwd (run g oldcwd w (Input.signal Sig.SIGHUP :: post)).1
              (Input.ret w.child st :: tail)).1 (Input.ret v st')).2) ∧
          (0 < v →
            (step g oldcwd (run g oldcwd (run g oldcwd w (Input.signal Sig.SIGHUP :: post)).1
              (Input.ret w.child st :: tail)).1 (Input.ret v st')).1.pc = PC.wait_call ∧
            (step g oldcwd (run g oldcwd (run g oldcwd w (Input.signal Sig.SIGHUP :: post)).1
              (Input.ret w.child st :: tail)).1 (Input.ret v st')).1.child = v ∧
            (step g oldcwd (run g oldcwd (run g oldcwd w (Input.signal Sig.SIGHUP :: post)).1
              (Input.ret w.child st :: tail)).1 (Input.ret v st')).1.child_dead = 0 ∧
            (step g oldcwd (run g oldcwd (run g oldcwd w (Input.signal Sig.SIGHUP :: post)).1
              (Input.ret w.child st :: tail)).1 (Input.ret v st')).2 = [Event.fork v])) := by
  have hR := reach_run g oldcwd fs pre
  have hT := terminated_zero_run g oldcwd pre (Watcher.init fs) hpre rfl
  rw [hreach] at hR hT
  generalize live_children [] (run g oldcwd (Watcher.init fs) pre).2 = l at hR
  clear hreach
  obtain ⟨pc, t, r, c, cd, ec, fs1⟩ := w
  simp only at hblocked hT
  subst hblocked
  simp only [Reach] at hR
  obtain ⟨-, -, hcd, hc⟩ := hR
  subst hcd hT
  have hne : ¬((-1 : Int) = c) := by omega
  have hstep : step g oldcwd ⟨PC.wait_blocked, 0, r, c, 0, ec, fs1⟩ (Input.signal Sig.SIGHUP) =
      (⟨PC.read_restart, 0, 1, c, 0, ec, fs1⟩, [Event.wait (-1) 0]) := by
    simp [step, deliver, wait_returned, hne]
  have hok := no_term_signal_mem post hpost
  have h0 : Restarting c ⟨PC.read_restart, 0, 1, c, 0, ec, fs1⟩ [Event.wait (-1) 0] := by
    simp [Restarting, hc, occurs, is_fork, is_sleep, is_reap, is_exit, hne]
  have hD := run_invariant g oldcwd (Restarting c) (fun i => is_term_signal i = false)
    (fun w tr i hi hP => restarting_step g oldcwd c w tr i hi hP) post _ _ hok h0
  have hK : 1 ≤ ticks post → restart_kill_rank c
      ([Event.wait (-1) 0] ++
        (run g oldcwd ⟨PC.read_restart, 0, 1, c, 0, ec, fs1⟩ post).2) = 0 := fun h1 =>
    run_rank g oldcwd (Restarting c) (fun i => is_term_signal i = false)
      (fun _ tr => restart_kill_rank c tr)
      (fun w tr i hi hP => restarting_step g oldcwd c w tr i hi hP)
      (fun w tr i _ hP => restart_kill_rank_step g oldcwd c w tr i hP) post _ _
      hok h0 (by simp [restart_kill_rank, occurs, is_term]; omega)
  rw [run_cons, hstep]
  simp only
  generalize (run g oldcwd ⟨PC.read_restart, 0, 1, c, 0, ec, fs1⟩ post) = res at hD hK
  obtain ⟨w2, tr2⟩ := res
  simp only at hD hK ⊢
  obtain ⟨hT2, hR2, -, hRK, hFR, hPC⟩ := hD
  refine ⟨hR2, hT2, ?_, hRK, ?_, ?_, ?_⟩
  · intro h1
    have := hK h1
    simp only [restart_kill_rank] at this
    split_ifs at this with hk
    · exact hk
  · intro hnr
    have hnf : occurs is_fork ([Event.wait (-1) 0] ++ tr2) = false := by
      cases hf : occurs is_fork ([Event.wait (-1) 0] ++ tr2) with
      | false => rfl
      | true => rw [hFR hf] at hnr; exact absurd hnr (by decide)
    rcases hPC with hPC | ⟨hch, -, -, hPC⟩
    · rw [hnf] at hPC; exact absurd hPC (by decide)
    · refine ⟨?_, hch, hnf⟩
      obtain ⟨pc2, t2, r2, c2, cd2, ec2, fs2⟩ := w2
      cases pc2 <;> simp_all [in_wait_loop]
  · intro hnf
    rcases hPC with hPC | ⟨hch, hns, hne', hPC⟩
    · rw [hnf] at hPC; exact absurd hPC (by decide)
    · refine ⟨hns, hne', ?_, ?_⟩ <;>
      · obtain ⟨pc2, t2, r2, c2, cd2, ec2, fs2⟩ := w2
        cases pc2 <;> simp_all
  · intro hwb hnf st tail hterm hret htail
    rcases hPC with hPC | ⟨hch, -, -, hPC⟩
    · rw [hnf] at hPC; exact absurd hPC (by decide)
    · have h5 := respawning_after_reap g oldcwd w2 st tail hwb hT2 hR2 hterm hret htail
      rw [hch] at h5
      refine ⟨h5.1, h5.2, ?_⟩
      intro v st'
      exact fork_call_step g oldcwd _ v st' h5.1

/-- Witness of `restart_during_wait`: child 100 has been forked, the watcher
is blocked in `wait`, SIGHUP arrives and one program step follows. -/
theorem restart_during_wait_witness :
    (no_term_signal [Input.ret 100 0, Input.tick] = true ∧
      no_term_signal [Input.tick] = true ∧
      (run example_globals none (Watcher.init FS.empty)
        [Input.ret 100 0, Input.tick]).1.pc = PC.wait_blocked) ∧
    occurs (is_term 100)
      (run example_globals none
        (run example_globals none (Watcher.init FS.empty) [Input.ret 100 0, Input.tick]).1
        [Input.signal Sig.SIGHUP, Input.tick]).2 = true :=
  ⟨⟨by decide, by decide, by decide⟩,
    (restart_during_wait example_globals none FS.empty [Input.ret 100 0, Input.tick]
      [Input.tick] _ (by decide) (by decide) rfl (by decide)).2.2.1 (by decide)⟩

/-! ## The supervisory loop: the restart flag is never cleared -/

/-- C2, evaluated on a failing run with the default delay of 10 seconds: child
100 is replaced on a SIGHUP; its successor 101 then exits on its own with
status 1, no signal having been delivered since it was forked; the watcher
reaches the next `fork` without calling `sleep`. -/
theorem no_delay_after_served_restart :
    (run Globals.init none (Watcher.init FS.empty)
      [Input.ret 100 0, Input.tick, Input.signal Sig.SIGHUP, Input.tick, Input.tick,
        Input.tick, Input.ret 100 15, Input.tick, Input.tick, Input.tick,
        Input.ret 101 0, Input.tick, Input.ret 101 256, Input.tick, Input.tick,
        Input.tick]).2
      = [Event.fork 100, Event.wait (-1) 0, Event.log (Msg.watcher_restart_requested 100),
          Event.kill 100 Sig.SIGTERM, Event.wait 100 15, Event.log (Msg.watcher_child_died 0),
          Event.fork 101, Event.wait 101 256, Event.log (Msg.watcher_child_died 1)] ∧
    (run Globals.init none (Watcher.init FS.empty)
      [Input.ret 100 0, Input.tick, Input.signal Sig.SIGHUP, Input.tick, Input.tick,
        Input.tick, Input.ret 100 15, Input.tick, Input.tick, Input.tick,
        Input.ret 101 0, Input.tick, Input.ret 101 256, Input.tick, Input.tick,
        Input.tick]).1.pc = PC.fork_call ∧
    Globals.init.sleeptime = 10 := by
  decide

/-- C10, evaluated on a failing run: after the watcher has reacted to the
SIGHUP by sending SIGTERM to child 100, `restart_requested` is still 1, and it
is still 1 when the watcher calls `fork` for the next child, no further
signal having been delivered. -/
theorem restart_flag_not_cleared :
    (run Globals.init none (Watcher.init FS.empty)
      [Input.ret 100 0, Input.tick, Input.signal Sig.SIGHUP, Input.tick]).2
      = [Event.fork 100, Event.wait (-1) 0, Event.log (Msg.watcher_restart_requested 100),
          Event.kill 100 Sig.SIGTERM] ∧
    (run Globals.init none (Watcher.init FS.empty)
      [Input.ret 100 0, Input.tick, Input.signal Sig.SIGHUP, Input.tick]).1.restart_requested
      = 1 ∧
    (run Globals.init none (Watcher.init FS.empty)
      [Input.ret 100 0, Input.tick, Input.signal Sig.SIGHUP, Input.tick, Input.tick,
        Input.tick, Input.ret 100 15, Input.tick, Input.tick, Input.tick]).1.pc
      = PC.fork_call ∧
    (run Globals.init none (Watcher.init FS.empty)
      [Input.ret 100 0, Input.tick, Input.signal Sig.SIGHUP, Input.tick, Input.tick,
        Input.tick, Input.ret 100 15, Input.tick, Input.tick, Input.tick]).1.restart_requested
      = 1 := by
  decide

end Respawn
